import Mathlib

/-!
Verification of the grub-wiz review/diff/validation engine.

Python strings are modelled as `List Char` (`PyStr`); Python dicts as
insertion-ordered association lists; code that can raise `KeyError`
returns `Except Unit _`.  External collaborators (the disk probe, the
filesystem existence test, the content hash) are passed in as explicit
function arguments.  All definitions are translated from the repository
sources (`src/grub_wiz/...`); definitions whose name ends in `_spec`
restate a sentence of the natural-language specification instead, for
comparison with the code-derived definition.
-/

set_option maxRecDepth 10000

namespace GrubWiz

/-- Python `str` modelled as its list of characters. -/
abbrev PyStr := List Char

/-- Coerce a Lean string literal to the `PyStr` model. -/
def pys (s : String) : PyStr := s.data

/-- The single-quote character (written via its code point). -/
def sq : Char := Char.ofNat 39

/-- The double-quote character (written via its code point). -/
def dq : Char := Char.ofNat 34

/-- The backslash character. -/
def bsl : Char := Char.ofNat 92

/-- The backtick character. -/
def btick : Char := Char.ofNat 96

/-- Python dict of strings: insertion-ordered association list. -/
abbrev Vals := List (PyStr × PyStr)

/-- `vals.get(k)`: first binding wins (keys are unique in a Python dict). -/
def pyGet? (vals : Vals) (k : PyStr) : Option PyStr :=
  (vals.find? (fun p => p.1 == k)).map (·.2)

/-- `vals.get(k, d)`: guarded lookup with a default. -/
def pyGetD (vals : Vals) (k d : PyStr) : PyStr :=
  (pyGet? vals k).getD d

/-- `vals[k]`: unguarded indexing; a missing key raises `KeyError`,
modelled as `Except.error ()`. -/
def pyGetBang (vals : Vals) (k : PyStr) : Except Unit PyStr :=
  match pyGet? vals k with
  | some v => .ok v
  | none => .error ()

/-- `k in vals` membership test on a Python dict. -/
def pyHasKey (vals : Vals) (k : PyStr) : Bool :=
  (pyGet? vals k).isSome

/-! ## SessionState: `GrubWiz.find_in` (src/grub_wiz/main.py:725-749) -/

/-- Result namespace returned by `find_in`
(`SimpleNamespace(idx, choices, next_idx, next_value, prev_idx, prev_value)`). -/
structure FindResult where
  idx : Int
  choices : List PyStr
  next_idx : Nat
  next_value : PyStr
  prev_idx : Nat
  prev_value : PyStr
  deriving Repr, DecidableEq

/-- The scan `for ii, choice in enumerate(choices): if str(value) == str(choice)`:
first matching index, else `-1` ("default to before first"). -/
def firstMatchIdx (value : PyStr) : List PyStr → Int
  | [] => -1
  | choice :: rest =>
    if value == choice then 0
    else
      let r := firstMatchIdx value rest
      if r < 0 then -1 else r + 1

/-- `GrubWiz.find_in(value, enums)` from src/grub_wiz/main.py:725-749.
The enum dict is modelled by its insertion-ordered key list (the code
uses `list(enums.keys())` and compares with `str` equality; values are
already modelled as strings).  The `assert choices` on an empty list is
modelled by returning `none`. -/
def find_in (value : PyStr) (choices : List PyStr) : Option FindResult :=
  if choices = [] then none
  else
    let idx : Int := firstMatchIdx value choices
    let k : Int := (choices.length : Int)
    let next_idx : Nat := ((idx + 1) % k).toNat
    let next_value := choices.getD next_idx []
    let prev_idx : Nat := ((idx + k - 1) % k).toNat
    let prev_value := choices.getD prev_idx []
    some { idx := idx, choices := choices,
           next_idx := next_idx, next_value := next_value,
           prev_idx := prev_idx, prev_value := prev_value }

/-- One `cycle_next` key press (src/grub_wiz/main.py:813-817):
`found = self.find_in(value, enums); self.param_values[name] = found.next_value`.
When the enum list is empty the handler is skipped, so the value is kept. -/
def cycleNextVal (choices : List PyStr) (v : PyStr) : PyStr :=
  match find_in v choices with
  | some r => r.next_value
  | none => v

/-- One `cycle_prev` key press (src/grub_wiz/main.py:819-823). -/
def cyclePrevVal (choices : List PyStr) (v : PyStr) : PyStr :=
  match find_in v choices with
  | some r => r.prev_value
  | none => v

/-! ## SessionState: `GrubWiz.get_diffs` (src/grub_wiz/main.py:366-373) -/

/-- `GrubWiz.get_diffs`: iterate `prev_values` (which `_reinit` builds in
catalog insertion order), read `param_values[key]` with unguarded
indexing, and collect the pairs whose `str` forms differ.  `str` is the
identity on our string-modelled values. -/
def get_diffs (prev_values param_values : Vals) :
    Except Unit (List (PyStr × (PyStr × PyStr))) :=
  prev_values.foldlM
    (fun diffs kv => do
      let new_value ← pyGetBang param_values kv.1
      if kv.2 ≠ new_value then
        pure (diffs ++ [(kv.1, (kv.2, new_value))])
      else
        pure diffs)
    []

/-- The spec's characterization of `diff()`:
`{p : (original[p], current[p]) | string(current[p]) != string(original[p])}`
in catalog (= `prev_values`) insertion order. -/
def diffSpec (prev_values param_values : Vals) :
    List (PyStr × (PyStr × PyStr)) :=
  prev_values.filterMap
    (fun kv =>
      match pyGet? param_values kv.1 with
      | some nv => if kv.2 ≠ nv then some (kv.1, (kv.2, nv)) else none
      | none => none)

/-! ## VisibilityStore: `WizHides` (src/grub_wiz/WizHides.py) -/

/-- The mutable state of `WizHides`: the two hidden-item sets (Python
`set`s, modelled as duplicate-free lists) and the dirty counter. -/
structure WizHidesState where
  params : List PyStr
  warns : List PyStr
  dirty_count : Nat
  deriving Repr, DecidableEq

/-- `WizHides.hide_param` (src/grub_wiz/WizHides.py:137-141). -/
def hide_param (s : WizHidesState) (name : PyStr) : WizHidesState :=
  if name ∈ s.params then s
  else { s with params := s.params ++ [name], dirty_count := s.dirty_count + 1 }

/-- `WizHides.unhide_param` (src/grub_wiz/WizHides.py:143-147).
Python `set.remove` drops the element entirely. -/
def unhide_param (s : WizHidesState) (name : PyStr) : WizHidesState :=
  if name ∈ s.params then
    { s with params := s.params.filter (fun p => p ≠ name),
             dirty_count := s.dirty_count + 1 }
  else s

/-- `WizHides.hide_warn` (src/grub_wiz/WizHides.py:149-153). -/
def hide_warn (s : WizHidesState) (cid : PyStr) : WizHidesState :=
  if cid ∈ s.warns then s
  else { s with warns := s.warns ++ [cid], dirty_count := s.dirty_count + 1 }

/-- `WizHides.unhide_warn` (src/grub_wiz/WizHides.py:155-159). -/
def unhide_warn (s : WizHidesState) (cid : PyStr) : WizHidesState :=
  if cid ∈ s.warns then
    { s with warns := s.warns.filter (fun p => p ≠ cid),
             dirty_count := s.dirty_count + 1 }
  else s

/-- `WizHides.is_hidden_param` (src/grub_wiz/WizHides.py:161-163). -/
def is_hidden_param (s : WizHidesState) (name : PyStr) : Bool :=
  name ∈ s.params

/-- `WizHides.is_hidden_warn` (src/grub_wiz/WizHides.py:165-167). -/
def is_hidden_warn (s : WizHidesState) (cid : PyStr) : Bool :=
  cid ∈ s.warns

/-! ## SessionState: `GrubWiz._is_valid_shell_token` (src/grub_wiz/main.py:620-645) -/

/-- The `dangerous = set(';&|<>(){}[]$`\\!')` character set, written via
code points: `; & | < > ( ) { } [ ] $ ` \ !`. -/
def isDangerousChar (c : Char) : Bool :=
  c.toNat ∈ [59, 38, 124, 60, 62, 40, 41, 123, 125, 91, 93, 36, 96, 92, 33]

/-- Python `inner.replace('\\"', '')`: delete each non-overlapping
occurrence of backslash-followed-by-double-quote, left to right. -/
def removeEscapedQuotes : PyStr → PyStr
  | [] => []
  | [c] => [c]
  | c :: c2 :: rest =>
    if c = bsl ∧ c2 = dq then removeEscapedQuotes rest
    else c :: removeEscapedQuotes (c2 :: rest)

/-- `GrubWiz._is_valid_shell_token(value)` from src/grub_wiz/main.py:620-645. -/
def is_valid_shell_token (value : PyStr) : Bool :=
  if value = [] then true
  else if value.head? = some sq ∧ value.getLast? = some sq ∧ 2 ≤ value.length then
    true
  else if value.head? = some dq ∧ value.getLast? = some dq ∧ 2 ≤ value.length then
    -- check = inner.replace('\\"', ''); return '"' not in check
    !(removeEscapedQuotes (value.drop 1).dropLast).contains dq
  else if ' ' ∈ value ∨ '\t' ∈ value ∨ '\n' ∈ value then false
  else if value.any isDangerousChar then false
  else true

/-- The claim's acceptance set, restated from the spec's words: empty, or
a fully single-quoted or fully double-quoted token (balanced, with no
unescaped inner quote), or a token with no whitespace character and none
of the listed special characters. -/
def validShellToken_spec (value : PyStr) : Prop :=
  value = []
  ∨ (value.head? = some sq ∧ value.getLast? = some sq ∧ 2 ≤ value.length
      ∧ ¬ sq ∈ (value.drop 1).dropLast)
  ∨ (value.head? = some dq ∧ value.getLast? = some dq ∧ 2 ≤ value.length
      ∧ ¬ (removeEscapedQuotes (value.drop 1).dropLast).contains dq)
  ∨ ((∀ c ∈ value, ¬ c.isWhitespace) ∧ ∀ c ∈ value, ¬ isDangerousChar c)

instance (value : PyStr) : Decidable (validShellToken_spec value) := by
  unfold validShellToken_spec
  infer_instance

/-! ## BackupStore: `BackupMgr` (src/grub_wiz/BackupMgr.py) -/

/-- The regex digit class `\d` (ASCII, as produced by `strftime`). -/
def isDigitChar (c : Char) : Bool := c.isDigit

/-- The regex class `[0-9a-fA-F]` from `BACKUP_FILENAME_PATTERN`. -/
def isHexChar (c : Char) : Bool :=
  c.isDigit || ('a' ≤ c ∧ c ≤ 'f') || ('A' ≤ c ∧ c ≤ 'F')

/-- The regex class `[a-zA-Z0-9_-]` (the tag) from `BACKUP_FILENAME_PATTERN`. -/
def isTagChar (c : Char) : Bool :=
  c.isAlpha || c.isDigit || c = '_' || c = '-'

/-- `match.group(2).upper()`: uppercase the extracted checksum. -/
def upperStr (s : PyStr) : PyStr := s.map Char.toUpper

/-- Try to match `BACKUP_FILENAME_PATTERN`
(`(\d{8}-\d{6})-([0-9a-fA-F]{8})\.([a-zA-Z0-9_-]+)\.bak$`) starting at
the head of `l` and extending to the end of the string; on success
return checksum group 2.  Because the tag class excludes `.`, the tag of
a successful match is exactly the maximal run of tag characters after
the dot, so the match (when it exists) is unique. -/
def matchBackupHere (l : PyStr) : Option PyStr :=
  let d8 := l.take 8
  let rest1 := l.drop 8
  if d8.length = 8 ∧ d8.all isDigitChar ∧ rest1.head? = some '-' then
    let d6 := (rest1.drop 1).take 6
    let rest2 := rest1.drop 7
    if d6.length = 6 ∧ d6.all isDigitChar ∧ rest2.head? = some '-' then
      let hx := (rest2.drop 1).take 8
      let rest3 := rest2.drop 9
      if hx.length = 8 ∧ hx.all isHexChar ∧ rest3.head? = some '.' then
        let tagPart := (rest3.drop 1).takeWhile isTagChar
        let tail := (rest3.drop 1).dropWhile isTagChar
        if tagPart ≠ [] ∧ tail = pys ".bak" then some hx else none
      else none
    else none
  else none

/-- `re.search` of `BACKUP_FILENAME_PATTERN` over a file name: try each
start position left to right; return the uppercased checksum of the
first match (`get_backups` applies `.upper()`). -/
def parseBackupName : PyStr → Option PyStr
  | [] => none
  | c :: rest =>
    match matchBackupHere (c :: rest) with
    | some cks => some (upperStr cks)
    | none => parseBackupName rest

/-- `backups[checksum] = file_path` on a Python dict: overwrite in place
if present, else append. -/
def dictInsert (m : List (PyStr × PyStr)) (k v : PyStr) : List (PyStr × PyStr) :=
  if m.any (fun p => p.1 == k) then
    m.map (fun p => if p.1 == k then (p.1, v) else p)
  else m ++ [(k, v)]

/-- `BackupMgr.get_backups` (src/grub_wiz/BackupMgr.py:118-125): fold the
directory listing into a checksum-keyed dict. -/
def get_backups (files : List PyStr) : List (PyStr × PyStr) :=
  files.foldl
    (fun backups f =>
      match parseBackupName f with
      | some cks => dictInsert backups cks f
      | none => backups)
    []

/-- `BackupMgr.create_backup(tag)` (src/grub_wiz/BackupMgr.py:150-187).
The target file's byte content, the wall clock (`strftime` result) and
the hash (`calc_checksum` = first 8 hex chars of SHA-256, uppercased)
are external inputs, passed as `content`, `ts` and `sha8`.  The state is
the backup directory listing; the result is the returned record's file
name (`None` on failure) paired with the new listing. -/
def create_backup (sha8 : PyStr → PyStr) (ts tag content : PyStr)
    (files : List PyStr) : Option PyStr × List PyStr :=
  let current_checksum := sha8 content
  if current_checksum = [] then (none, files)
  else
    let existing_backups := get_backups files
    match pyGet? existing_backups current_checksum with
    | some existing => (some existing, files)
    | none =>
      let new_filename := ts ++ ['-'] ++ current_checksum
        ++ ['.'] ++ tag ++ pys ".bak"
      (some new_filename, files ++ [new_filename])

/-- Well-formed `strftime("%Y%m%d-%H%M%S")` output: 8 digits, `-`, 6 digits. -/
def wfTimestamp (ts : PyStr) : Prop :=
  ∃ a b, ts = a ++ ['-'] ++ b ∧ a.length = 8 ∧ a.all isDigitChar
    ∧ b.length = 6 ∧ b.all isDigitChar

/-- Well-formed tag, as `do_start_up_backup` enforces
(`^[-_A-Za-z0-9]+$`): nonempty, tag characters only. -/
def wfTag (tag : PyStr) : Prop := tag ≠ [] ∧ tag.all isTagChar

/-- Well-formed `calc_checksum` output: 8 uppercase hex characters
(`hexdigest()[:8].upper()`). -/
def wfChecksum (c : PyStr) : Prop :=
  c.length = 8 ∧ c.all isHexChar ∧ upperStr c = c

/-- At most one stored backup file per distinct checksum (the
`BackupRecord` invariant of the spec's data model). -/
def atMostOnePerChecksum (files : List PyStr) : Prop :=
  ∀ c, (files.filter (fun f => parseBackupName f == some c)).length ≤ 1

/-! ## ValidationEngine: `WizValidator` (src/grub_wiz/WizValidator.py)

The disk probe (`probe_disk_layout`, an `lsblk`/`efibootmgr` subprocess)
and `os.path.exists` are external collaborators, passed in as a
`DiskLayout` record and a `pathExists` oracle. -/

/-- The cached result of `WizValidator.probe_disk_layout`. -/
structure DiskLayout where
  has_another_os : Bool
  is_luks_active : Bool
  is_lvm_active : Bool
  deriving Repr, DecidableEq

/-- The slice of a catalog entry `make_warns` reads: the enum keys (in
insertion order, already in string form) and the `edit_re` pattern. -/
structure ParamCfg where
  enums : Option (List PyStr)
  edit_re : Option PyStr
  deriving Repr, DecidableEq

/-- One warning as stored: `(stars[severity], message)`. -/
abbrev WarnEntry := PyStr × PyStr

/-- The warnings dict: param name -> append-ordered list of entries. -/
abbrev Warns := List (PyStr × List WarnEntry)

/-- `stars = [''] + '* ** *** ****'.split()`. -/
def stars : List PyStr := [[], pys "*", pys "**", pys "***", pys "****"]

/-- The nested `hey(param, severity, message)` helper: append an entry to
the param's list, creating the key at the end on first use. -/
def hey (w : Warns) (param : PyStr) (severity : Nat) (message : PyStr) : Warns :=
  let entry : WarnEntry := (stars.getD severity [], message)
  if w.any (fun p => p.1 == param) then
    w.map (fun p => if p.1 == param then (p.1, p.2 ++ [entry]) else p)
  else w ++ [(param, [entry])]

/-- `warns.get(param, [])`: the entries attached to a parameter. -/
def lookupWarns (w : Warns) (param : PyStr) : List WarnEntry :=
  ((w.find? (fun p => p.1 == param)).map (·.2)).getD []

/-- The nested `quotes(param)` helper: `(param, f'"{param}"', f"'{param}'")`. -/
def quotesForms (p : PyStr) : List PyStr :=
  [p, [dq] ++ p ++ [dq], [sq] ++ p ++ [sq]]

/-- Python `x in tuple` where `x` may be `None` (`None` matches nothing). -/
def optIn (v : Option PyStr) (l : List PyStr) : Bool :=
  match v with
  | some s => l.contains s
  | none => false

/-- Python truthiness of `vals.get(k)`: `None` and `''` are falsy. -/
def optTruthy (v : Option PyStr) : Bool :=
  match v with
  | some s => !s.isEmpty
  | none => false

/-- Python substring test `needle in hay` (empty needle always matches). -/
def pyInfixOf (needle : PyStr) : PyStr → Bool
  | [] => needle.isEmpty
  | c :: rest => needle.isPrefixOf (c :: rest) || pyInfixOf needle rest

/-- `value[1:].rstrip(c)`-style helper: strip every trailing `c`. -/
def rstripChar (c : Char) (s : PyStr) : PyStr :=
  (s.reverse.dropWhile (fun x => x == c)).reverse

/-- The nested `unquote(value)` helper (src/grub_wiz/WizValidator.py:174-180). -/
def unquote (value : PyStr) : PyStr :=
  if value.head? = some sq then rstripChar sq (value.drop 1)
  else if value.head? = some dq then rstripChar dq (value.drop 1)
  else value

/-- Python `str.isdigit` on ASCII text: nonempty, all digits. -/
def pyIsDigit (s : PyStr) : Bool := !s.isEmpty && s.all Char.isDigit

/-- `int(s)` for a string of digits. -/
def pyToNat (s : PyStr) : Nat :=
  s.foldl (fun n c => n * 10 + (c.toNat - 48)) 0

/-- `s.strip()`: strip leading and trailing whitespace. -/
def stripWs (s : PyStr) : PyStr :=
  ((s.dropWhile Char.isWhitespace).reverse.dropWhile Char.isWhitespace).reverse

/-- `s.strip(c)` for a single strip character. -/
def stripChar (c : Char) (s : PyStr) : PyStr :=
  rstripChar c (s.dropWhile (fun x => x == c))

/-- Exponent suffix of a Python float literal: `e`/`E`, optional sign,
at least one digit. -/
def floatExpOk : PyStr → Bool
  | [] => true
  | e :: t =>
    if e = 'e' ∨ e = 'E' then
      let t2 := match t with
        | c :: tt => if c = '+' ∨ c = '-' then tt else t
        | [] => t
      !t2.isEmpty && t2.all Char.isDigit
    else false

/-- Parse the unsigned part of a finite Python float literal
(`digits [. digits] [exponent]`, at least one mantissa digit); return
whether the mantissa is nonzero, or `none` when malformed. -/
def parseDecimal (u : PyStr) : Option Bool :=
  let ip := u.takeWhile Char.isDigit
  let r1 := u.dropWhile Char.isDigit
  let fp := match r1 with
    | c :: t => if c = '.' then t.takeWhile Char.isDigit else []
    | [] => []
  let r2 := match r1 with
    | c :: t => if c = '.' then t.dropWhile Char.isDigit else r1
    | [] => r1
  if ip = [] ∧ fp = [] then none
  else if floatExpOk r2 then some ((ip ++ fp).any (fun c => c ≠ '0'))
  else none

/-- `float(s) > 0` with a `ValueError` treated as `False` (the code's
`try/except` around the comparison).  Floats are modelled by the exact
rational value of the literal: the sign of a parsed finite literal is
the sign of that rational (exponent underflow to `0.0` and digit-group
underscores in literals are outside the model); `inf`/`nan` keywords
follow IEEE comparison with zero. -/
def pyFloatGtZero (s : PyStr) : Bool :=
  let t := stripWs s
  let (pos, u) : Bool × PyStr := match t with
    | c :: rest =>
      if c = '+' then (true, rest)
      else if c = '-' then (false, rest)
      else (true, t)
    | [] => (true, t)
  let low := u.map Char.toLower
  if low = pys "inf" ∨ low = pys "infinity" then pos
  else if low = pys "nan" then false
  else
    match parseDecimal u with
    | some nonzero => pos && nonzero
    | none => false

/-- Bounded-fuel replace-all (each step consumes at least one character,
so `s.length` fuel suffices). -/
def replaceAllAux (pat rep : PyStr) : Nat → PyStr → PyStr
  | 0, s => s
  | _ + 1, [] => []
  | fuel + 1, c :: rest =>
    if pat ≠ [] ∧ pat.isPrefixOf (c :: rest) then
      rep ++ replaceAllAux pat rep fuel ((c :: rest).drop pat.length)
    else c :: replaceAllAux pat rep fuel rest

/-- Python `s.replace(pat, rep)` (leftmost, non-overlapping). -/
def pyReplace (s pat rep : PyStr) : PyStr := replaceAllAux pat rep s.length s

/-- `os.path.join(base, r)` for the cases the path check exercises. -/
def pyJoin (base r : PyStr) : PyStr :=
  if r.head? = some '/' then r
  else if base.getLast? = some '/' then base ++ r
  else base ++ ['/'] ++ r

/-- `WizValidator.get_full_path_and_check_existence`
(src/grub_wiz/WizValidator.py:120-161), with `os.path.exists` passed in
as the `pathExists` oracle. -/
def get_full_path_and_check_existence (pathExists : PyStr → Bool)
    (path : PyStr) : Bool × PyStr :=
  let base_dirs := [pys "/boot/grub", pys "/boot/grub2", pys "/usr/share/grub", pys "/"]
  if path = [] then (false, [])
  else
    let resolved := stripChar sq (stripChar dq (stripWs path))
    let resolved :=
      if (pys "$prefix").isPrefixOf resolved then
        pyReplace resolved (pys "$prefix") (pys "/boot/grub")
      else resolved
    if resolved.head? = some '/' then (pathExists resolved, resolved)
    else
      match base_dirs.find? (fun base => pathExists (pyJoin base resolved)) with
      | some base => (true, pyJoin base resolved)
      | none => (false, pyJoin (pys "/boot/grub") resolved)

/-- `s.split(',')`: split on every comma, keeping empty pieces. -/
def pySplitComma : PyStr → List PyStr
  | [] => [[]]
  | c :: rest =>
    if c = ',' then [] :: pySplitComma rest
    else
      match pySplitComma rest with
      | h :: t => (c :: h) :: t
      | [] => [[c]]

/-! ### The rule checks of `make_warns` (src/grub_wiz/WizValidator.py:193-389),
one definition per source block, applied in source order. -/

/-- Lines 195-199: `DEFAULT=saved` requires `SAVEDEFAULT=true`.
`vals[p2]` is unguarded indexing, evaluated only under the outer test. -/
def checkSaveDefault (vals : Vals) (d : PyStr) (w : Warns) : Except Unit Warns :=
  if d ∈ quotesForms (pys "saved") then do
    let sv ← pyGetBang vals (pys "GRUB_SAVEDEFAULT")
    if sv ∉ quotesForms (pys "true") then
      pure (hey w (pys "GRUB_SAVEDEFAULT") 4
        (pys "must be \"true\" since DEFAULT is \"saved\""))
    else pure w
  else pure w

/-- The same check once `GRUB_SAVEDEFAULT` is known to be present with
value `sv` (used to state `make_warns` as a pure chain). -/
def checkSaveDefaultPure (d sv : PyStr) (w : Warns) : Warns :=
  if d ∈ quotesForms (pys "saved") ∧ sv ∉ quotesForms (pys "true") then
    hey w (pys "GRUB_SAVEDEFAULT") 4 (pys "must be \"true\" since DEFAULT is \"saved\"")
  else w

/-- Lines 201-210: zero timeout with hidden style. -/
def checkZeroTimeout (vals : Vals) (w : Warns) : Warns :=
  let is_zero_timeout :=
    optIn (pyGet? vals (pys "GRUB_TIMEOUT")) (quotesForms (pys "0"))
    || optIn (pyGet? vals (pys "GRUB_TIMEOUT")) (quotesForms (pys "0.0"))
  if is_zero_timeout
      && optIn (pyGet? vals (pys "GRUB_TIMEOUT_STYLE")) (quotesForms (pys "hidden")) then
    hey w (pys "GRUB_TIMEOUT") 4 (pys "should be positive int when TIMEOUT_STYLE=\"hidden\"")
  else w

/-- Lines 213-232: positive timeout with a style other than `menu`. -/
def checkPosTimeout (vals : Vals) (w : Warns) : Warns :=
  let timeout_val := unquote (pyGetD vals (pys "GRUB_TIMEOUT") (pys "0"))
  let is_positive_timeout := pyFloatGtZero timeout_val
  let is_not_menu :=
    !(optIn (pyGet? vals (pys "GRUB_TIMEOUT_STYLE")) (quotesForms (pys "menu")))
  if is_positive_timeout && is_not_menu then
    hey w (pys "GRUB_TIMEOUT_STYLE") 4 (pys "should be \"menu\" when TIMEOUT > 0")
  else w

/-- Lines 235-242: `quiet`/`splash` inside `GRUB_CMDLINE_LINUX`. -/
def checkQuietSplash (cl : PyStr) (w : Warns) : Warns :=
  let w :=
    if pyInfixOf (pys "quiet") cl then
      hey w (pys "GRUB_CMDLINE_LINUX") 3 (pys "\"quiet\" belongs only in CMDLINE_LINUX_DEFAULT")
    else w
  if pyInfixOf (pys "splash") cl then
    hey w (pys "GRUB_CMDLINE_LINUX") 3 (pys "\"splash\" belongs only in CMDLINE_LINUX_DEFAULT")
  else w

/-- Lines 244-247: LUKS/LVM kernel-argument presence. -/
def checkLuksLvm (layout : DiskLayout) (cl : PyStr) (w : Warns) : Warns :=
  let w :=
    if layout.is_luks_active && !pyInfixOf (pys "rd.luks.uuid=") cl then
      hey w (pys "GRUB_CMDLINE_LINUX") 3 (pys "no \"rd.luks.uuid=\" but LUKS seems active")
    else w
  if layout.is_lvm_active && !pyInfixOf (pys "rd.lvm.vg=") cl then
    hey w (pys "GRUB_CMDLINE_LINUX") 3 (pys "no \"rd.lvm.vg=\" but LVM seems active")
  else w

/-- Lines 249-252: `GRUB_ENABLE_CRYPTODISK` without detected LUKS. -/
def checkCryptodisk (layout : DiskLayout) (vals : Vals) (w : Warns) : Warns :=
  if optIn (pyGet? vals (pys "GRUB_ENABLE_CRYPTODISK")) (quotesForms (pys "true"))
      && !layout.is_luks_active then
    hey w (pys "GRUB_ENABLE_CRYPTODISK") 1 (pys "enabled but no LUKS encryption detected")
  else w

/-- Lines 254-257: recovery cmdline set while recovery is disabled. -/
def checkRecovery (vals : Vals) (w : Warns) : Warns :=
  if optTruthy (pyGet? vals (pys "GRUB_CMDLINE_LINUX_RECOVERY"))
      && optIn (pyGet? vals (pys "GRUB_DISABLE_RECOVERY")) (quotesForms (pys "true")) then
    hey w (pys "GRUB_CMDLINE_LINUX_RECOVERY") 2
      (pys "set but DISABLE_RECOVERY=\"true\" disables recovery mode")
  else w

/-- Lines 259-263: both UUID kinds disabled. -/
def checkUuidPair (vals : Vals) (w : Warns) : Warns :=
  if optIn (pyGet? vals (pys "GRUB_DISABLE_LINUX_UUID")) (quotesForms (pys "true"))
      && optIn (pyGet? vals (pys "GRUB_DISABLE_LINUX_PARTUUID")) (quotesForms (pys "true")) then
    hey (hey w (pys "GRUB_DISABLE_LINUX_UUID") 2
          (pys "using device names for everything is fragile"))
      (pys "GRUB_DISABLE_LINUX_PARTUUID") 2
      (pys "using device names for everything is fragile")
  else w

/-- Lines 265-271: terminal input/output mismatch. -/
def checkTerminalIo (vals : Vals) (w : Warns) : Warns :=
  let val_in := unquote (pyGetD vals (pys "GRUB_TERMINAL_INPUT") (pys "console"))
  let val_out := unquote (pyGetD vals (pys "GRUB_TERMINAL_OUTPUT") [])
  if !val_out.isEmpty && val_in != val_out then
    if pyInfixOf (pys "serial") val_in || pyInfixOf (pys "serial") val_out then
      hey w (pys "GRUB_TERMINAL_INPUT") 2
        ([dq] ++ val_in ++ [dq] ++ pys " but TERMINAL_OUTPUT=" ++ [dq] ++ val_out
          ++ [dq] ++ pys " (should match)")
    else w
  else w

/-- Lines 273-282: serial command / serial terminal consistency. -/
def checkSerial (vals : Vals) (w : Warns) : Warns :=
  let serial_cmd := pyGetD vals (pys "GRUB_SERIAL_COMMAND") []
  let term_in := unquote (pyGetD vals (pys "GRUB_TERMINAL_INPUT") (pys "console"))
  let term_out := unquote (pyGetD vals (pys "GRUB_TERMINAL_OUTPUT") [])
  let has_serial_term :=
    pyInfixOf (pys "serial") term_in || pyInfixOf (pys "serial") term_out
  let w :=
    if !serial_cmd.isEmpty && !has_serial_term then
      hey w (pys "GRUB_SERIAL_COMMAND") 2 (pys "set but no serial terminal configured")
    else w
  if has_serial_term && serial_cmd.isEmpty then
    hey w
      (if pyInfixOf (pys "serial") term_in then pys "GRUB_TERMINAL_INPUT"
       else pys "GRUB_TERMINAL_OUTPUT") 2
      (pys "serial terminal needs SERIAL_COMMAND set")
  else w

/-- Lines 284-292: `SAVEDEFAULT=true` with a numeric `DEFAULT`
(`vals[p1]` read unconditionally at line 288). -/
def checkNumericDefault (vals : Vals) (sv : PyStr) (w : Warns) : Warns :=
  if (quotesForms (pys "true")).contains sv then
    let default_value := pyGetD vals (pys "GRUB_DEFAULT") (pys "0")
    if pyIsDigit (unquote default_value) then
      hey w (pys "GRUB_DEFAULT") 1 (pys "avoid numeric when SAVEDEFAULT=\"true\"")
    else w
  else w

/-- One step of the quoting loop of lines 294-306. -/
def checkQuotingOne (vals : Vals) (w : Warns) (p : PyStr) : Warns :=
  match pyGet? vals p with
  | some value =>
    if value.contains ' ' && !(quotesForms (unquote value)).contains value then
      hey w p 2 (pys "has spaces and thus must be quoted")
    else w
  | none => w

/-- Lines 294-306: unquoted values with spaces, for the two CMDLINE params. -/
def checkQuoting (vals : Vals) (w : Warns) : Warns :=
  checkQuotingOne vals (checkQuotingOne vals w (pys "GRUB_CMDLINE_LINUX"))
    (pys "GRUB_CMDLINE_LINUX_DEFAULT")

/-- One step of the path loop of lines 308-314. -/
def checkPathOne (pathExists : PyStr → Bool) (vals : Vals) (w : Warns) (p : PyStr) : Warns :=
  let val := pyGetD vals p []
  if !val.isEmpty then
    if !(get_full_path_and_check_existence pathExists val).1 then
      hey w p 2 (pys "path does not seem to exist")
    else w
  else w

/-- Lines 308-314: background/theme path existence. -/
def checkPaths (pathExists : PyStr → Bool) (vals : Vals) (w : Warns) : Warns :=
  checkPathOne pathExists vals
    (checkPathOne pathExists vals w (pys "GRUB_BACKGROUND")) (pys "GRUB_THEME")

/-- Lines 317-340: `GRUB_GFXMODE` against the fixed safe-mode set. -/
def checkGfxmode (vals : Vals) (w : Warns) : Warns :=
  let safe_modes := [pys "640x480", pys "800x600", pys "1024x768", pys "auto", pys "keep"]
  match pyGet? vals (pys "GRUB_GFXMODE") with
  | some value =>
    if !value.isEmpty then
      let modes := (pySplitComma (unquote value)).map
        (fun m => (stripWs m).map Char.toLower)
      let unsafe_modes := modes.filter (fun m => !safe_modes.contains m)
      if !unsafe_modes.isEmpty then
        hey w (pys "GRUB_GFXMODE") 1 (pys "perhaps unsupported; stick to common values")
      else w
    else w
  | none => w

/-- Lines 342-350: missing/empty `GRUB_DISTRIBUTOR`. -/
def checkDistributor (vals : Vals) (w : Warns) : Warns :=
  let val := pyGetD vals (pys "GRUB_DISTRIBUTOR") []
  if !val.isEmpty && !(pys "$(").isPrefixOf val && !([btick]).isPrefixOf val then
    if (stripWs val).isEmpty then
      hey w (pys "GRUB_DISTRIBUTOR") 2 (pys "should be distro name (it is missing/empty)")
    else w
  else if val.isEmpty then
    hey w (pys "GRUB_DISTRIBUTOR") 2 (pys "should be distro name (it is missing/empty)")
  else w

/-- Lines 353-362: OS-prober state versus detected other OSes. -/
def checkOsProber (layout : DiskLayout) (vals : Vals) (w : Warns) : Warns :=
  let is_prober_disabled :=
    optIn (pyGet? vals (pys "GRUB_DISABLE_OS_PROBER")) (quotesForms (pys "true"))
  let w :=
    if is_prober_disabled && layout.has_another_os then
      hey w (pys "GRUB_DISABLE_OS_PROBER") 2
        (pys "suggest setting \"false\" since multi-boot detected")
    else w
  if !is_prober_disabled && !layout.has_another_os then
    hey w (pys "GRUB_DISABLE_OS_PROBER") 1
      (pys "perhaps set \"true\" since no multi-boot detected?")
  else w

/-- Lines 364-378: enum membership for parameters with enum choices and
no free-form pattern. -/
def checkEnums (param_cfg : List (PyStr × ParamCfg)) (vals : Vals) (w : Warns) : Warns :=
  param_cfg.foldl
    (fun w pc =>
      let enums := pc.2.enums
      let regex := pc.2.edit_re
      let has_enums := match enums with
        | some l => !l.isEmpty
        | none => false
      let has_no_regex := match regex with
        | some r => r.isEmpty
        | none => true
      if has_enums && has_no_regex && pyHasKey vals pc.1 then
        let value := unquote (pyGetD vals pc.1 [])
        let found := (enums.getD []).any (fun k => value == unquote k)
        if !found then
          hey w pc.1 3 (pys "value not in list of allowed values")
        else w
      else w)
    w

/-- One step of the timeout-ceiling loop of lines 380-387
(`str(unquote(vals.get(k)))` turns a missing key into `"None"`). -/
def checkTimeoutLimitOne (vals : Vals) (w : Warns) (p : PyStr) (limit : Nat)
    (msg : PyStr) : Warns :=
  let val := match pyGet? vals p with
    | some s => unquote s
    | none => pys "None"
  if !val.isEmpty && pyIsDigit val && decide (limit < pyToNat val) then
    hey w p 1 msg
  else w

/-- Lines 380-387: advisory ceilings for the two timeout parameters. -/
def checkTimeoutLimits (vals : Vals) (w : Warns) : Warns :=
  checkTimeoutLimitOne vals
    (checkTimeoutLimitOne vals w (pys "GRUB_TIMEOUT") 60 (pys "over 60s seems ill advised"))
    (pys "GRUB_RECORDFAIL_TIMEOUT") 120 (pys "over 120s seems ill advised")

/-- `WizValidator.make_warns(vals)` (src/grub_wiz/WizValidator.py:164-389):
the rule blocks in source order, with the three unguarded dict reads
(`vals['GRUB_DEFAULT']` line 197, `vals['GRUB_CMDLINE_LINUX']` line 237,
`vals['GRUB_SAVEDEFAULT']` line 288) surfacing as `Except` binds. -/
def make_warns (layout : DiskLayout) (pathExists : PyStr → Bool)
    (param_cfg : List (PyStr × ParamCfg)) (vals : Vals) : Except Unit Warns := do
  let d ← pyGetBang vals (pys "GRUB_DEFAULT")
  let w ← checkSaveDefault vals d []
  let w := checkPosTimeout vals (checkZeroTimeout vals w)
  let cl ← pyGetBang vals (pys "GRUB_CMDLINE_LINUX")
  let w := checkQuietSplash cl w
  let w := checkLuksLvm layout cl w
  let w := checkCryptodisk layout vals w
  let w := checkRecovery vals w
  let w := checkUuidPair vals w
  let w := checkTerminalIo vals w
  let w := checkSerial vals w
  let sv ← pyGetBang vals (pys "GRUB_SAVEDEFAULT")
  let w := checkNumericDefault vals sv w
  let w := checkQuoting vals w
  let w := checkPaths pathExists vals w
  let w := checkGfxmode vals w
  let w := checkDistributor vals w
  let w := checkOsProber layout vals w
  let w := checkEnums param_cfg vals w
  let w := checkTimeoutLimits vals w
  pure w

/-- The pure tail of `make_warns` once the three required values are in
hand: the same chain, with `checkSaveDefault` replaced by its pure form. -/
def warnsPure (layout : DiskLayout) (pathExists : PyStr → Bool)
    (param_cfg : List (PyStr × ParamCfg)) (vals : Vals) (d sv cl : PyStr) : Warns :=
  checkTimeoutLimits vals
    (checkEnums param_cfg vals
      (checkOsProber layout vals
        (checkDistributor vals
          (checkGfxmode vals
            (checkPaths pathExists vals
              (checkQuoting vals
                (checkNumericDefault vals sv
                  (checkSerial vals
                    (checkTerminalIo vals
                      (checkUuidPair vals
                        (checkRecovery vals
                          (checkCryptodisk layout vals
                            (checkLuksLvm layout cl
                              (checkQuietSplash cl
                                (checkPosTimeout vals
                                  (checkZeroTimeout vals
                                    (checkSaveDefaultPure d sv [])))))))))))))))))

/-- The warnings map of a successful `make_warns` run. -/
def warnsOf (r : Except Unit Warns) : Warns :=
  match r with
  | .ok w => w
  | .error _ => []

/-! ## ReviewCompiler: the must-review list
(`GrubWiz.add_review_body`, src/grub_wiz/main.py:309-328) -/

/-- Regex word character `[A-Za-z0-9_]` (the class behind `\b`). -/
def isWordChar (c : Char) : Bool :=
  ('a' ≤ c ∧ c ≤ 'z') || ('A' ≤ c ∧ c ≤ 'Z') || c.isDigit || c = '_'

/-- The class `[_A-Z]` of `re.findall(r'\b[_A-Z]+\b', ...)`. -/
def isUpperOrUnd (c : Char) : Bool := ('A' ≤ c ∧ c ≤ 'Z') || c = '_'

/-- Scanner for `re.findall(r'\b[_A-Z]+\b', msg)`: a match is a maximal
run of `[_A-Z]` characters whose neighbours (when present) are not word
characters — shortening a run never helps, because the next character of
a shortened run is still a word character and breaks the trailing `\b`.
The boolean argument records whether the previous character was a word
character. -/
def upperRunsAux : Nat → PyStr → Bool → List PyStr
  | 0, _, _ => []
  | _ + 1, [], _ => []
  | fuel + 1, c :: rest, prevWord =>
    if isUpperOrUnd c && !prevWord then
      let run := c :: rest.takeWhile isUpperOrUnd
      let after := rest.dropWhile isUpperOrUnd
      (if (after.head?.map isWordChar).getD false then [] else [run])
        ++ upperRunsAux fuel after true
    else
      upperRunsAux fuel rest (isWordChar c)

/-- `re.findall(r'\b[_A-Z]+\b', msg)` (src/grub_wiz/main.py:317).  Each
scanner step consumes at least one character, so `msg.length` fuel
makes the recursion total without changing its result. -/
def findallUpper (msg : PyStr) : List PyStr := upperRunsAux msg.length msg false

/-- Lines 319-323: resolve an uppercase token against `param_values`,
preferring the `GRUB_`-prefixed form, else the bare token, else nothing. -/
def resolveWord (vals : Vals) (word : PyStr) : Option PyStr :=
  if pyHasKey vals (pys "GRUB_" ++ word) then some (pys "GRUB_" ++ word)
  else if !(pyHasKey vals word) then none
  else some word

/-- `if x not in must_reviews: must_reviews.append(x)`. -/
def appendIfAbsent (l : List PyStr) (x : PyStr) : List PyStr :=
  if x ∈ l then l else l ++ [x]

/-- Lines 316-325: append every resolved token of one warning message. -/
def addWordRefs (vals : Vals) (acc : List PyStr) (msg : PyStr) : List PyStr :=
  (findallUpper msg).foldl
    (fun a word =>
      match resolveWord vals word with
      | some other_name => appendIfAbsent a other_name
      | none => a)
    acc

/-- Lines 312-327: the first-compilation must-review list — the diff
keys, then, for every warned parameter (diffed or not), the resolved
tokens of each of its warning messages followed by the parameter itself,
deduplicated in encounter order. -/
def mustReviewsCompute (diffKeys : List PyStr) (warns : Warns) (vals : Vals) :
    List PyStr :=
  warns.foldl
    (fun acc pw =>
      appendIfAbsent (pw.2.foldl (fun a h => addWordRefs vals a h.2) acc) pw.1)
    diffKeys

/-- The `if self.must_reviews is None` guard at line 312: compile the
list only when the review session has none yet, otherwise keep the
stored one. -/
def compileMustReviews (stored : Option (List PyStr)) (diffKeys : List PyStr)
    (warns : Warns) (vals : Vals) : List PyStr :=
  match stored with
  | some l => l
  | none => mustReviewsCompute diffKeys warns vals

/-! # Lemmas and claim theorems -/

/-- Python `%` on a cast numerator agrees with `Nat.mod`. -/
lemma natCast_emod_toNat (a b : Nat) :
    (((a : Int)) % ((b : Int))).toNat = a % b := by
  rw [← Int.natCast_mod, Int.toNat_natCast]

/-- A value absent from the choice list scans to index `-1`. -/
lemma firstMatchIdx_neg_of_not_mem {value : PyStr} :
    ∀ {choices : List PyStr}, value ∉ choices → firstMatchIdx value choices = -1
  | [], _ => rfl
  | c :: rest, h => by
    have h1 : ¬ value = c := fun he => h (he ▸ List.mem_cons_self c rest)
    have h2 : value ∉ rest := fun hm => h (List.mem_cons_of_mem c hm)
    simp [firstMatchIdx, h1, firstMatchIdx_neg_of_not_mem h2]

/-- On a duplicate-free choice list the scan finds the exact index. -/
lemma firstMatchIdx_get {choices : List PyStr} (hnd : choices.Nodup) :
    ∀ (i : Nat) (hi : i < choices.length),
      firstMatchIdx (choices.get ⟨i, hi⟩) choices = i := by
  induction choices with
  | nil => intro i hi; simp at hi
  | cons c rest ih =>
    intro i hi
    match i with
    | 0 => simp [firstMatchIdx]
    | j + 1 =>
      have hj : j < rest.length := by simpa using hi
      have hmem : rest.get ⟨j, hj⟩ ∈ rest := List.get_mem rest j hj
      have hne : ¬ rest.get ⟨j, hj⟩ = c := by
        intro he
        exact (List.nodup_cons.mp hnd).1 (he ▸ hmem)
      have hrec := ih (List.nodup_cons.mp hnd).2 j hj
      simp only [List.get_cons_succ, firstMatchIdx, beq_iff_eq, hne, if_false]
      rw [hrec]
      simp

/-- C1 (amended), as a statement about one cycle press: a current value
that string-equals none of the (nonempty) choices is treated as index
`-1`, so `cycleNext` lands on index `0` while `cyclePrev` lands on index
`(k-2) mod k` — the second-to-last choice when `k ≥ 2` — not on the last
choice. -/
theorem cycle_absent_value (value : PyStr) (choices : List PyStr)
    (hne : choices ≠ []) (habs : value ∉ choices) :
    cycleNextVal choices value = choices.getD 0 []
    ∧ cyclePrevVal choices value
        = choices.getD ((2 * choices.length - 2) % choices.length) [] := by
  have hk : 0 < choices.length := List.length_pos.mpr hne
  have hidx := firstMatchIdx_neg_of_not_mem habs
  have hnext : ((-1 + 1 : Int) % (choices.length : Int)).toNat = 0 := by
    norm_num
  have hcast : ((-1 : Int) + (choices.length : Int) - 1)
      = ((2 * choices.length - 2 : Nat) : Int) + (choices.length : Int) * (-1) := by
    omega
  have hprev : (((-1 : Int) + (choices.length : Int) - 1) % (choices.length : Int)).toNat
      = (2 * choices.length - 2) % choices.length := by
    rw [hcast, Int.add_mul_emod_self_left, natCast_emod_toNat]
  unfold cycleNextVal cyclePrevVal find_in
  rw [if_neg hne]
  simp only [hidx, hnext, hprev]
  exact ⟨trivial, trivial⟩

/-- C1 counterexample: with choices `[menu, countdown, hidden]` and the
absent value `fish`, one `cyclePrev` yields `countdown`, not the last
choice `hidden` the claim requires (one `cycleNext` does yield index 0). -/
theorem c1_cyclePrev_counterexample :
    (pys "fish") ∉ [pys "menu", pys "countdown", pys "hidden"]
    ∧ cycleNextVal [pys "menu", pys "countdown", pys "hidden"] (pys "fish") = pys "menu"
    ∧ cyclePrevVal [pys "menu", pys "countdown", pys "hidden"] (pys "fish") = pys "countdown"
    ∧ [pys "menu", pys "countdown", pys "hidden"].getLast? = some (pys "hidden")
    ∧ pys "countdown" ≠ pys "hidden" := by decide

/-- C1 witness: the amended statement applied at the same concrete input. -/
theorem c1_witness :
    cycleNextVal [pys "menu", pys "countdown", pys "hidden"] (pys "fish")
      = [pys "menu", pys "countdown", pys "hidden"].getD 0 []
    ∧ cyclePrevVal [pys "menu", pys "countdown", pys "hidden"] (pys "fish")
      = [pys "menu", pys "countdown", pys "hidden"].getD ((2 * 3 - 2) % 3) [] :=
  cycle_absent_value (pys "fish") [pys "menu", pys "countdown", pys "hidden"]
    (by decide) (by decide)

/-- One `cycleNext` press from a listed value steps to the next index. -/
lemma cycleNextVal_get {choices : List PyStr} (hnd : choices.Nodup)
    (i : Nat) (hi : i < choices.length) :
    cycleNextVal choices (choices.get ⟨i, hi⟩)
      = choices.get ⟨(i + 1) % choices.length, Nat.mod_lt _ (by omega)⟩ := by
  have hne : choices ≠ [] := by
    intro h; rw [h] at hi; simp at hi
  unfold cycleNextVal find_in
  rw [if_neg hne]
  have hc : ((i : Int) + 1) = ((i + 1 : Nat) : Int) := by omega
  have harith : (((i : Int) + 1) % (choices.length : Int)).toNat
      = (i + 1) % choices.length := by
    rw [hc, natCast_emod_toNat]
  simp only [firstMatchIdx_get hnd i hi, harith]
  exact List.getD_eq_get choices [] _

/-- One `cyclePrev` press from a listed value steps back by one
(as `+ (k-1)` modulo `k`). -/
lemma cyclePrevVal_get {choices : List PyStr} (hnd : choices.Nodup)
    (i : Nat) (hi : i < choices.length) :
    cyclePrevVal choices (choices.get ⟨i, hi⟩)
      = choices.get ⟨(i + (choices.length - 1)) % choices.length,
          Nat.mod_lt _ (by omega)⟩ := by
  have hne : choices ≠ [] := by
    intro h; rw [h] at hi; simp at hi
  have hk : 0 < choices.length := by
    cases choices with
    | nil => exact absurd rfl hne
    | cons a l => simp
  unfold cyclePrevVal find_in
  rw [if_neg hne]
  have hc : ((i : Int) + (choices.length : Int) - 1)
      = ((i + (choices.length - 1) : Nat) : Int) := by omega
  have harith : (((i : Int) + (choices.length : Int) - 1) % (choices.length : Int)).toNat
      = (i + (choices.length - 1)) % choices.length := by
    rw [hc, natCast_emod_toNat]
  simp only [firstMatchIdx_get hnd i hi, harith]
  exact List.getD_eq_get choices [] _

/-- Iterating a step-by-`s` cycle walks the index arithmetic. -/
lemma cycle_iterate {choices : List PyStr} {f : PyStr → PyStr} {s : Nat}
    (hk : 0 < choices.length)
    (hstep : ∀ (i : Nat) (hi : i < choices.length),
      f (choices.get ⟨i, hi⟩)
        = choices.get ⟨(i + s) % choices.length, Nat.mod_lt _ hk⟩) :
    ∀ (n i : Nat) (hi : i < choices.length),
      f^[n] (choices.get ⟨i, hi⟩)
        = choices.get ⟨(i + n * s) % choices.length, Nat.mod_lt _ hk⟩ := by
  intro n
  induction n with
  | zero =>
    intro i hi
    simp [Nat.mod_eq_of_lt hi]
  | succ n ih =>
    intro i hi
    rw [Function.iterate_succ_apply, hstep i hi, ih]
    congr 1
    apply Fin.ext
    show ((i + s) % choices.length + n * s) % choices.length
      = (i + (n + 1) * s) % choices.length
    rw [Nat.mod_add_mod]
    ring_nf

/-- C2 (amended): for a parameter whose `k` enum choices are pairwise
distinct as strings and whose current value string-equals one of them,
`k` presses of `cycleNext` return to the original value, and so do `k`
presses of `cyclePrev`. -/
theorem cycle_k_times_returns (choices : List PyStr) (hnd : choices.Nodup)
    (v : PyStr) (hv : v ∈ choices) :
    (cycleNextVal choices)^[choices.length] v = v
    ∧ (cyclePrevVal choices)^[choices.length] v = v := by
  obtain ⟨⟨i, hi⟩, rfl⟩ := List.mem_iff_get.mp hv
  have hk : 0 < choices.length := by omega
  constructor
  · rw [cycle_iterate hk (fun j hj => cycleNextVal_get hnd j hj) choices.length i hi]
    congr 1
    apply Fin.ext
    show (i + choices.length * 1) % choices.length = i
    simp [Nat.mod_eq_of_lt hi]
  · rw [cycle_iterate hk (fun j hj => cyclePrevVal_get hnd j hj) choices.length i hi]
    congr 1
    apply Fin.ext
    show (i + choices.length * (choices.length - 1)) % choices.length = i
    rw [Nat.add_mul_mod_self_left]
    exact Nat.mod_eq_of_lt hi

/-- C2 counterexample: with choices `[a, b]` (k = 2) and current value
`c` absent from them, two presses of `cycleNext` end on `b`, not back on
`c`; two presses of `cyclePrev` also fail to return. -/
theorem c2_cycle_counterexample :
    (cycleNextVal [pys "a", pys "b"])^[2] (pys "c") = pys "b"
    ∧ pys "b" ≠ pys "c"
    ∧ (cyclePrevVal [pys "a", pys "b"])^[2] (pys "c") = pys "b"
    ∧ (pys "c") ∉ [pys "a", pys "b"] := by decide

/-- C2 witness: the amended statement at the spec's scenario 4 enum list. -/
theorem c2_witness :
    (cycleNextVal [pys "menu", pys "countdown", pys "hidden"])^[3] (pys "menu")
      = pys "menu"
    ∧ (cyclePrevVal [pys "menu", pys "countdown", pys "hidden"])^[3] (pys "menu")
      = pys "menu" := by
  have h := cycle_k_times_returns [pys "menu", pys "countdown", pys "hidden"]
    (by decide) (pys "menu") (by decide)
  exact h

/-- `Except.ok` feeds straight through a bind. -/
lemma exc_ok_bind {α β : Type} (a : α) (k : α → Except Unit β) :
    (Except.ok a >>= k) = k a := rfl

/-- `pure` on `Except` is `Except.ok`. -/
lemma exc_pure_eq_ok {α : Type} (a : α) : (pure a : Except Unit α) = Except.ok a := rfl

/-- `Except.error` short-circuits a bind. -/
lemma exc_error_bind {α β : Type} (k : α → Except Unit β) :
    ((Except.error () : Except Unit α) >>= k) = Except.error () := rfl

/-- The diff fold with an arbitrary accumulator. -/
lemma get_diffs_fold (param_values : Vals) :
    ∀ (prev : Vals) (acc : List (PyStr × (PyStr × PyStr))),
      (∀ kv ∈ prev, (pyGet? param_values kv.1).isSome = true) →
      prev.foldlM
        (fun diffs kv => do
          let new_value ← pyGetBang param_values kv.1
          if kv.2 ≠ new_value then
            pure (diffs ++ [(kv.1, (kv.2, new_value))])
          else
            pure diffs)
        acc
      = .ok (acc ++ diffSpec prev param_values)
  | [], acc, _ => by
    simp only [List.foldlM_nil, diffSpec, List.filterMap_nil, List.append_nil]
    rfl
  | kv :: rest, acc, h => by
    obtain ⟨nv, hnv⟩ := Option.isSome_iff_exists.mp (h kv (List.mem_cons_self kv rest))
    have hrest : ∀ kv ∈ rest, (pyGet? param_values kv.1).isSome = true :=
      fun kv2 hm => h kv2 (List.mem_cons_of_mem kv hm)
    have ih := get_diffs_fold param_values rest
    rw [List.foldlM_cons]
    show ((pyGetBang param_values kv.1) >>= fun new_value =>
        if kv.2 ≠ new_value then pure (acc ++ [(kv.1, (kv.2, new_value))]) else pure acc)
      >>= _ = _
    rw [show pyGetBang param_values kv.1 = Except.ok nv by
      simp [pyGetBang, hnv]]
    rw [exc_ok_bind]
    by_cases hd : kv.2 = nv
    · rw [if_neg (not_not_intro hd), exc_pure_eq_ok, exc_ok_bind, ih acc hrest]
      simp [diffSpec, List.filterMap_cons, hnv, hd]
    · rw [if_pos hd, exc_pure_eq_ok, exc_ok_bind,
        ih (acc ++ [(kv.1, (kv.2, nv))]) hrest]
      simp [diffSpec, List.filterMap_cons, hnv, hd]

/-- C3: under the session-state invariant that every catalog key of the
original-value map is also a key of the current-value map, `get_diffs`
returns exactly the spec's comprehension — each parameter whose current
value differs (as a string) from its original, paired with
`(original, current)`, in the insertion order of `prev_values` (which
`_reinit` builds in catalog order). -/
theorem get_diffs_eq_diffSpec (prev_values param_values : Vals)
    (h : ∀ kv ∈ prev_values, (pyGet? param_values kv.1).isSome = true) :
    get_diffs prev_values param_values = .ok (diffSpec prev_values param_values) := by
  unfold get_diffs
  rw [get_diffs_fold param_values prev_values [] h]
  simp

/-- C3 witness: the theorem applied at a concrete two-parameter session. -/
theorem c3_witness :
    get_diffs [(pys "GRUB_TIMEOUT", pys "5"), (pys "GRUB_TIMEOUT_STYLE", pys "menu")]
        [(pys "GRUB_TIMEOUT", pys "0"), (pys "GRUB_TIMEOUT_STYLE", pys "menu")]
      = .ok (diffSpec [(pys "GRUB_TIMEOUT", pys "5"), (pys "GRUB_TIMEOUT_STYLE", pys "menu")]
          [(pys "GRUB_TIMEOUT", pys "0"), (pys "GRUB_TIMEOUT_STYLE", pys "menu")])
    ∧ diffSpec [(pys "GRUB_TIMEOUT", pys "5"), (pys "GRUB_TIMEOUT_STYLE", pys "menu")]
        [(pys "GRUB_TIMEOUT", pys "0"), (pys "GRUB_TIMEOUT_STYLE", pys "menu")]
      = [(pys "GRUB_TIMEOUT", (pys "5", pys "0"))] :=
  ⟨get_diffs_eq_diffSpec _ _ (by decide), by decide⟩

/-- C6 (amended): the four hide/unhide operations are idempotent and bump
the dirty counter exactly on an actual state change; but
`hide_param x; unhide_param x` always ends with `x` unhidden — this
equals the pre-pair value only when `x` was not hidden beforehand,
because `hide_param` on an already-hidden `x` is a no-op that the
subsequent `unhide_param` then undoes past the starting state. -/
theorem hide_unhide_contract (s : WizHidesState) (x y : PyStr) :
    (is_hidden_param s x = true → hide_param s x = s)
    ∧ (is_hidden_param s x = false → unhide_param s x = s)
    ∧ (is_hidden_param s x = false →
        (hide_param s x).dirty_count = s.dirty_count + 1
        ∧ is_hidden_param (hide_param s x) x = true)
    ∧ (is_hidden_param s x = true →
        (unhide_param s x).dirty_count = s.dirty_count + 1
        ∧ is_hidden_param (unhide_param s x) x = false)
    ∧ (is_hidden_warn s y = true → hide_warn s y = s)
    ∧ (is_hidden_warn s y = false → unhide_warn s y = s)
    ∧ (is_hidden_warn s y = false → (hide_warn s y).dirty_count = s.dirty_count + 1)
    ∧ (is_hidden_warn s y = true → (unhide_warn s y).dirty_count = s.dirty_count + 1)
    ∧ is_hidden_param (unhide_param (hide_param s x) x) x = false := by
  have hfilter : ∀ l : List PyStr, x ∉ l.filter (fun p => p ≠ x) := by
    intro l hm
    have := List.of_mem_filter hm
    simp at this
  refine ⟨?_, ?_, ?_, ?_, ?_, ?_, ?_, ?_, ?_⟩
  · intro h
    have hm : x ∈ s.params := by simpa [is_hidden_param] using h
    simp [hide_param, hm]
  · intro h
    have hm : x ∉ s.params := by simpa [is_hidden_param] using h
    simp [unhide_param, hm]
  · intro h
    have hm : x ∉ s.params := by simpa [is_hidden_param] using h
    refine ⟨by simp [hide_param, hm], ?_⟩
    simp [hide_param, hm, is_hidden_param]
  · intro h
    have hm : x ∈ s.params := by simpa [is_hidden_param] using h
    refine ⟨by simp [unhide_param, hm], ?_⟩
    simp only [unhide_param, if_pos hm, is_hidden_param]
    simpa using hfilter s.params
  · intro h
    have hm : y ∈ s.warns := by simpa [is_hidden_warn] using h
    simp [hide_warn, hm]
  · intro h
    have hm : y ∉ s.warns := by simpa [is_hidden_warn] using h
    simp [unhide_warn, hm]
  · intro h
    have hm : y ∉ s.warns := by simpa [is_hidden_warn] using h
    simp [hide_warn, hm]
  · intro h
    have hm : y ∈ s.warns := by simpa [is_hidden_warn] using h
    simp [unhide_warn, hm]
  · by_cases h : x ∈ s.params
    · simp only [hide_param, if_pos h, unhide_param, if_pos h, is_hidden_param]
      simpa using hfilter s.params
    · have h2 : x ∈ s.params ++ [x] := List.mem_append_right _ (List.mem_singleton.mpr rfl)
      simp only [hide_param, if_neg h, unhide_param]
      simp only [h2, if_pos, is_hidden_param]
      simpa using hfilter (s.params ++ [x])

/-- C6 counterexample: starting from a state where `GRUB_X` is already
hidden, `hide_param` is a no-op and `unhide_param` then unhides it, so
the pair of calls flips `is_hidden_param` from `true` to `false` instead
of restoring it. -/
theorem c6_pair_counterexample :
    is_hidden_param ⟨[pys "GRUB_X"], [], 0⟩ (pys "GRUB_X") = true
    ∧ is_hidden_param
        (unhide_param (hide_param ⟨[pys "GRUB_X"], [], 0⟩ (pys "GRUB_X")) (pys "GRUB_X"))
        (pys "GRUB_X") = false := by decide

/-- C6 witness: the amended contract applied at a concrete store. -/
theorem c6_witness :
    hide_param ⟨[pys "GRUB_X"], [], 0⟩ (pys "GRUB_X") = ⟨[pys "GRUB_X"], [], 0⟩
    ∧ (hide_param ⟨[], [], 0⟩ (pys "GRUB_X")).dirty_count = 1
    ∧ is_hidden_param
        (unhide_param (hide_param ⟨[], [], 0⟩ (pys "GRUB_X")) (pys "GRUB_X"))
        (pys "GRUB_X") = false :=
  ⟨(hide_unhide_contract ⟨[pys "GRUB_X"], [], 0⟩ (pys "GRUB_X") []).1 (by decide),
   ((hide_unhide_contract ⟨[], [], 0⟩ (pys "GRUB_X") []).2.2.1 (by decide)).1,
   (hide_unhide_contract ⟨[], [], 0⟩ (pys "GRUB_X") []).2.2.2.2.2.2.2.2⟩

/-- The amended acceptance set of `_is_valid_shell_token`: empty; or any
string that merely begins and ends with a single quote (length ≥ 2, with
no inner-quote requirement); or a double-quote-delimited string whose
interior has no unescaped double quote; or — only for strings not of
double-quoted shape — a token without space, tab or newline and without
the special characters `;&|<>(){}[]$`\!`. -/
def validShellTokenAmended (value : PyStr) : Prop :=
  value = []
  ∨ (value.head? = some sq ∧ value.getLast? = some sq ∧ 2 ≤ value.length)
  ∨ (value.head? = some dq ∧ value.getLast? = some dq ∧ 2 ≤ value.length
      ∧ ¬ (removeEscapedQuotes (value.drop 1).dropLast).contains dq)
  ∨ (¬ (value.head? = some dq ∧ value.getLast? = some dq ∧ 2 ≤ value.length)
      ∧ ¬ (' ' ∈ value ∨ '\t' ∈ value ∨ '\n' ∈ value)
      ∧ ∀ c ∈ value, ¬ isDangerousChar c)

/-- C7 (amended): the exact acceptance condition of the validator. -/
theorem is_valid_shell_token_iff (value : PyStr) :
    is_valid_shell_token value = true ↔ validShellTokenAmended value := by
  have hsd : sq ≠ dq := by decide
  unfold is_valid_shell_token validShellTokenAmended
  by_cases h0 : value = []
  · simp [h0]
  · rw [if_neg h0]
    by_cases h1 : value.head? = some sq ∧ value.getLast? = some sq ∧ 2 ≤ value.length
    · rw [if_pos h1]
      simp only [true_iff]
      exact Or.inr (Or.inl h1)
    · rw [if_neg h1]
      by_cases h2 : value.head? = some dq ∧ value.getLast? = some dq ∧ 2 ≤ value.length
      · rw [if_pos h2]
        constructor
        · intro h
          refine Or.inr (Or.inr (Or.inl ⟨h2.1, h2.2.1, h2.2.2, ?_⟩))
          simpa using h
        · intro h
          rcases h with h | h | h | h
          · exact absurd h h0
          · exact absurd h h1
          · simpa using h.2.2.2
          · exact absurd h2 h.1
      · rw [if_neg h2]
        by_cases h3 : ' ' ∈ value ∨ '\t' ∈ value ∨ '\n' ∈ value
        · rw [if_pos h3]
          constructor
          · intro h; exact absurd h (by simp)
          · intro h
            rcases h with h | h | h | h
            · exact absurd h h0
            · exact absurd h h1
            · exact absurd ⟨h.1, h.2.1, h.2.2.1⟩ h2
            · exact absurd h3 h.2.1
        · rw [if_neg h3]
          by_cases h4 : value.any isDangerousChar
          · rw [if_pos h4]
            constructor
            · intro h; exact absurd h (by simp)
            · intro h
              rcases h with h | h | h | h
              · exact absurd h h0
              · exact absurd h h1
              · exact absurd ⟨h.1, h.2.1, h.2.2.1⟩ h2
              · obtain ⟨c, hc, hdc⟩ := List.any_eq_true.mp h4
                exact absurd hdc (h.2.2 c hc)
          · rw [if_neg h4]
            simp only [true_iff]
            refine Or.inr (Or.inr (Or.inr ⟨h2, h3, ?_⟩))
            intro c hc hdc
            exact h4 (List.any_eq_true.mpr ⟨c, hc, hdc⟩)

/-- C7 counterexample: the input `'a 'b'` (single quotes around a token
that itself contains a space and an unescaped inner single quote) is
accepted by the code — its single-quote branch checks only the first and
last characters — yet it belongs to none of the claim's acceptance
classes: it is not empty, it is not a balanced quoted token free of
unescaped inner quotes, and it contains both whitespace and no quoting. -/
theorem c7_shell_token_counterexample :
    is_valid_shell_token (pys "'a 'b'") = true
    ∧ ¬ validShellToken_spec (pys "'a 'b'") := by
  constructor
  · decide
  · decide

/-- `takeWhile`/`dropWhile` split an append at the first failing char. -/
lemma takeWhile_dropWhile_append {p : Char → Bool} :
    ∀ (l1 : List Char) (c : Char) (l2 : List Char),
      (∀ x ∈ l1, p x = true) → p c = false →
      (l1 ++ c :: l2).takeWhile p = l1 ∧ (l1 ++ c :: l2).dropWhile p = c :: l2
  | [], c, l2, _, hc => by simp [List.takeWhile, List.dropWhile, hc]
  | x :: l1, c, l2, h, hc => by
    have hx : p x = true := h x (List.mem_cons_self x l1)
    have ih := takeWhile_dropWhile_append l1 c l2
      (fun z hz => h z (List.mem_cons_of_mem x hz)) hc
    simp [List.takeWhile_cons, List.dropWhile_cons, hx, ih.1, ih.2]

/-- The checksum extracted from the file name `create_backup` writes. -/
lemma matchBackupHere_created (a b cks tag : PyStr)
    (ha : a.length = 8) (had : a.all isDigitChar = true)
    (hb : b.length = 6) (hbd : b.all isDigitChar = true)
    (hc8 : cks.length = 8) (hchex : cks.all isHexChar = true)
    (htag : tag ≠ []) (htagc : tag.all isTagChar = true) :
    matchBackupHere (a ++ ['-'] ++ b ++ ['-'] ++ cks ++ ['.'] ++ tag ++ pys ".bak")
      = some cks := by
  have e1 : a ++ ['-'] ++ b ++ ['-'] ++ cks ++ ['.'] ++ tag ++ pys ".bak"
      = a ++ ('-' :: (b ++ ('-' :: (cks ++ ('.' :: (tag ++ pys ".bak")))))) := by
    simp [List.append_assoc]
  have hdot : isTagChar '.' = false := by decide
  have hsplit := takeWhile_dropWhile_append tag '.' (pys "bak")
    (fun z hz => by
      have := List.all_eq_true.mp htagc z hz
      exact this) hdot
  have hbak : tag ++ pys ".bak" = tag ++ '.' :: pys "bak" := rfl
  unfold matchBackupHere
  rw [e1]
  rw [List.take_left' ha, List.drop_left' ha]
  have hcons1 : ('-' :: (b ++ ('-' :: (cks ++ ('.' :: (tag ++ pys ".bak"))))))
      = ('-' :: b) ++ ('-' :: (cks ++ ('.' :: (tag ++ pys ".bak")))) := by simp
  simp only [List.head?_cons, List.drop_one, List.tail_cons]
  rw [List.take_left' hb]
  rw [hcons1, List.drop_left' (by simp [hb] : ('-' :: b).length = 7)]
  simp only [List.head?_cons, List.drop_one, List.tail_cons]
  rw [List.take_left' hc8]
  rw [show ('-' :: (cks ++ ('.' :: (tag ++ pys ".bak"))))
      = ('-' :: cks) ++ ('.' :: (tag ++ pys ".bak")) by simp,
    List.drop_left' (by simp [hc8] : ('-' :: cks).length = 9)]
  simp only [List.head?_cons, List.drop_one, List.tail_cons]
  have hbak2 : ('.' :: pys "bak") = pys ".bak" := rfl
  rw [hbak]
  simp only [hsplit.1, hsplit.2]
  simp [ha, had, hb, hbd, hc8, hchex, htag, hbak2]

/-- `re.search` on a nonempty name whose head position matches. -/
lemma parseBackupName_of_matchHere {name : PyStr} {cks : PyStr}
    (hne : name ≠ []) (h : matchBackupHere name = some cks) :
    parseBackupName name = some (upperStr cks) := by
  cases name with
  | nil => exact absurd rfl hne
  | cons c rest => simp [parseBackupName, h]

/-- `Option.map` keeps definedness. -/
lemma isSome_omap {α β : Type} (f : α → β) (o : Option α) :
    (o.map f).isSome = o.isSome := by cases o <;> rfl

/-- A key-preserving map does not change which keys `find?` hits. -/
lemma isSome_find?_map_keys {g : PyStr × PyStr → PyStr × PyStr}
    (hg : ∀ p, (g p).1 = p.1) (c : PyStr) :
    ∀ m : List (PyStr × PyStr),
      ((m.map g).find? (fun p => p.1 == c)).isSome
        = (m.find? (fun p => p.1 == c)).isSome
  | [] => rfl
  | e :: rest => by
    cases he : (e.1 == c) with
    | false =>
      simp only [List.map_cons, List.find?_cons, hg e, he]
      exact isSome_find?_map_keys hg c rest
    | true =>
      simp only [List.map_cons, List.find?_cons, hg e, he]
      rfl

/-- `find?` over a single appended binding. -/
lemma isSome_find?_append_single (k v c : PyStr) :
    ∀ m : List (PyStr × PyStr),
      ((m ++ [(k, v)]).find? (fun p => p.1 == c)).isSome = true
        ↔ (m.find? (fun p => p.1 == c)).isSome = true ∨ c = k
  | [] => by
    cases hkc : (k == c) with
    | false =>
      simp only [List.nil_append, List.find?_cons, List.find?_nil, hkc]
      constructor
      · intro h; exact absurd h (by simp)
      · rintro (h | rfl)
        · exact absurd h (by simp)
        · simp at hkc
    | true =>
      have : c = k := (beq_iff_eq.mp hkc).symm
      simp [List.find?_cons, hkc, this]
  | e :: rest => by
    cases he : (e.1 == c) with
    | false =>
      simp only [List.cons_append, List.find?_cons, he]
      exact isSome_find?_append_single k v c rest
    | true =>
      simp [List.find?_cons, he]

/-- `m.any (·.1 == k)` agrees with `find?` success. -/
lemma any_key_eq_isSome (k : PyStr) :
    ∀ m : List (PyStr × PyStr),
      m.any (fun p => p.1 == k) = (m.find? (fun p => p.1 == k)).isSome
  | [] => rfl
  | e :: rest => by
    cases he : (e.1 == k) with
    | false =>
      simp only [List.any_cons, List.find?_cons, he, Bool.false_or]
      exact any_key_eq_isSome k rest
    | true => simp [List.find?_cons, he]

/-- Lookup through `dictInsert` succeeds for the old keys and the new one. -/
lemma isSome_pyGet?_dictInsert (m : List (PyStr × PyStr)) (k v c : PyStr) :
    (pyGet? (dictInsert m k v) c).isSome = true
      ↔ (pyGet? m c).isSome = true ∨ c = k := by
  unfold dictInsert pyGet?
  by_cases hany : m.any (fun p => p.1 == k) = true
  · rw [if_pos hany]
    rw [isSome_omap, isSome_omap,
      isSome_find?_map_keys (fun p => by by_cases h : (p.1 == k) = true <;> simp [h]) c m]
    constructor
    · exact Or.inl
    · rintro (h | rfl)
      · exact h
      · rw [any_key_eq_isSome c m] at hany
        exact hany
  · rw [if_neg hany]
    rw [isSome_omap, isSome_omap]
    exact isSome_find?_append_single k v c m

/-- The folded `get_backups` dict has key `c` exactly when some listed
file parses to checksum `c`. -/
lemma isSome_getBackups_aux :
    ∀ (files : List PyStr) (acc : List (PyStr × PyStr)) (c : PyStr),
      (pyGet? (files.foldl
          (fun backups f =>
            match parseBackupName f with
            | some cks => dictInsert backups cks f
            | none => backups)
          acc) c).isSome = true
      ↔ (pyGet? acc c).isSome = true ∨ ∃ f ∈ files, parseBackupName f = some c
  | [], acc, c => by simp
  | f :: rest, acc, c => by
    rw [List.foldl_cons]
    cases hp : parseBackupName f with
    | none =>
      rw [isSome_getBackups_aux rest acc c]
      constructor
      · rintro (h | ⟨g, hg, hgc⟩)
        · exact Or.inl h
        · exact Or.inr ⟨g, List.mem_cons_of_mem f hg, hgc⟩
      · rintro (h | ⟨g, hg, hgc⟩)
        · exact Or.inl h
        · rcases List.mem_cons.mp hg with rfl | hg2
          · rw [hp] at hgc; exact absurd hgc (by simp)
          · exact Or.inr ⟨g, hg2, hgc⟩
    | some k =>
      rw [isSome_getBackups_aux rest (dictInsert acc k f) c,
        isSome_pyGet?_dictInsert]
      constructor
      · rintro ((h | rfl) | ⟨g, hg, hgc⟩)
        · exact Or.inl h
        · exact Or.inr ⟨f, List.mem_cons_self f rest, hp⟩
        · exact Or.inr ⟨g, List.mem_cons_of_mem f hg, hgc⟩
      · rintro (h | ⟨g, hg, hgc⟩)
        · exact Or.inl (Or.inl h)
        · rcases List.mem_cons.mp hg with rfl | hg2
          · rw [hp] at hgc
            exact Or.inl (Or.inr (Option.some_injective _ hgc).symm)
          · exact Or.inr ⟨g, hg2, hgc⟩

/-- Dictionary membership in `get_backups`, stated for the directory. -/
lemma isSome_getBackups (files : List PyStr) (c : PyStr) :
    (pyGet? (get_backups files) c).isSome = true
      ↔ ∃ f ∈ files, parseBackupName f = some c := by
  unfold get_backups
  rw [isSome_getBackups_aux files [] c]
  simp [pyGet?]

/-- The file name written by `create_backup` parses back to its checksum. -/
lemma parseBackupName_created (ts tag c : PyStr)
    (hts : wfTimestamp ts) (htag : wfTag tag) (hsum : wfChecksum c) :
    parseBackupName (ts ++ ['-'] ++ c ++ ['.'] ++ tag ++ pys ".bak") = some c := by
  obtain ⟨a, b, rfl, ha, had, hb, hbd⟩ := hts
  have e1 : a ++ ['-'] ++ b ++ ['-'] ++ c ++ ['.'] ++ tag ++ pys ".bak"
      = (a ++ ['-'] ++ b) ++ ['-'] ++ c ++ ['.'] ++ tag ++ pys ".bak" := by
    simp [List.append_assoc]
  have hmatch := matchBackupHere_created a b c tag ha had hb hbd hsum.1 hsum.2.1
    htag.1 htag.2
  rw [← e1] at hmatch
  have hne : a ++ ['-'] ++ b ++ ['-'] ++ c ++ ['.'] ++ tag ++ pys ".bak" ≠ [] := by
    intro h
    have := congrArg List.length h
    simp [ha] at this
  rw [← e1]
  rw [parseBackupName_of_matchHere hne hmatch, hsum.2.2]

/-- C4: `create_backup` is idempotent on content.  With a well-formed
timestamp, tag and checksum function, and a directory with at most one
backup per checksum: (i) if some stored backup already carries the
checksum of the current content, the call returns that record from
`get_backups` and writes nothing; (ii) the at-most-one-per-checksum
invariant is preserved; (iii) from a state with no backup of this
content, one call stores exactly one file with this checksum and a
second call over byte-identical content writes nothing further. -/
theorem create_backup_idempotent (sha8 : PyStr → PyStr)
    (ts tag ts2 tag2 content : PyStr) (files : List PyStr)
    (hts : wfTimestamp ts) (htag : wfTag tag) (hsum : wfChecksum (sha8 content))
    (hinv : atMostOnePerChecksum files) :
    ((∃ f ∈ files, parseBackupName f = some (sha8 content)) →
      (create_backup sha8 ts tag content files).2 = files
      ∧ (create_backup sha8 ts tag content files).1
          = pyGet? (get_backups files) (sha8 content)
      ∧ (pyGet? (get_backups files) (sha8 content)).isSome = true)
    ∧ atMostOnePerChecksum (create_backup sha8 ts tag content files).2
    ∧ ((¬ ∃ f ∈ files, parseBackupName f = some (sha8 content)) →
      ((create_backup sha8 ts tag content files).2.filter
          (fun f => parseBackupName f == some (sha8 content))).length = 1
      ∧ (create_backup sha8 ts2 tag2 content
          ((create_backup sha8 ts tag content files).2)).2
        = (create_backup sha8 ts tag content files).2) := by
  have hc_ne : sha8 content ≠ [] := by
    intro h
    have := hsum.1
    rw [h] at this
    simp at this
  have hparse := parseBackupName_created ts tag (sha8 content) hts htag hsum
  have hparse2 : parseBackupName (ts ++ '-' :: (sha8 content ++ '.' :: (tag ++ pys ".bak")))
      = some (sha8 content) := by simpa using hparse
  refine ⟨?_, ?_, ?_⟩
  · intro hmem
    have hsome : (pyGet? (get_backups files) (sha8 content)).isSome = true :=
      (isSome_getBackups files (sha8 content)).mpr hmem
    obtain ⟨ex, hex⟩ := Option.isSome_iff_exists.mp hsome
    simp only [create_backup, if_neg hc_ne, hex]
    simp [hsome]
  · cases hget : pyGet? (get_backups files) (sha8 content) with
    | some ex =>
      simp only [create_backup, if_neg hc_ne, hget]
      exact hinv
    | none =>
      simp only [create_backup, if_neg hc_ne, hget]
      intro c'
      have hnomem : ∀ f ∈ files, ¬ parseBackupName f = some (sha8 content) := by
        intro f hf hp
        have : (pyGet? (get_backups files) (sha8 content)).isSome = true :=
          (isSome_getBackups files (sha8 content)).mpr ⟨f, hf, hp⟩
        rw [hget] at this
        simp at this
      rw [List.filter_append, List.length_append]
      by_cases hcc : (sha8 content) = c'
      · subst hcc
        have hz : files.filter
            (fun f => parseBackupName f == some (sha8 content)) = [] := by
          apply List.filter_eq_nil.mpr
          intro f hf
          simp only [beq_iff_eq]
          intro hp
          exact hnomem f hf (by simpa using hp)
        rw [hz]
        simp [hparse2]
      · have hone : ([ts ++ ['-'] ++ sha8 content ++ ['.'] ++ tag ++ pys ".bak"].filter
            (fun f => parseBackupName f == some c')).length = 0 := by
          have hx : (parseBackupName
              (ts ++ '-' :: (sha8 content ++ '.' :: (tag ++ pys ".bak")))
                == some c') = false := by
            rw [hparse2]
            simpa using hcc
          simp [hx]
        rw [hone]
        have := hinv c'
        omega
  · intro hno
    have hget : pyGet? (get_backups files) (sha8 content) = none := by
      rcases hg : pyGet? (get_backups files) (sha8 content) with _ | ex
      · rfl
      · exact absurd ((isSome_getBackups files (sha8 content)).mp (by rw [hg]; rfl)) hno
    simp only [create_backup, if_neg hc_ne, hget]
    constructor
    · rw [List.filter_append]
      have hz : files.filter (fun f => parseBackupName f == some (sha8 content)) = [] := by
        apply List.filter_eq_nil.mpr
        intro f hf
        simp only [beq_iff_eq]
        intro hp
        exact hno ⟨f, hf, by simpa using hp⟩
      rw [hz]
      simp [hparse2]
    · have hmem2 : (pyGet? (get_backups
          (files ++ [ts ++ ['-'] ++ sha8 content ++ ['.'] ++ tag ++ pys ".bak"]))
          (sha8 content)).isSome = true := by
        apply (isSome_getBackups _ _).mpr
        exact ⟨_, List.mem_append_right _ (List.mem_singleton.mpr rfl), hparse⟩
      obtain ⟨ex2, hex2⟩ := Option.isSome_iff_exists.mp hmem2
      simp only [create_backup, if_neg hc_ne, hex2]

/-- C4 witness: the theorem applied to an empty backup directory with a
constant hash oracle; the two successive creates leave exactly one file. -/
theorem c4_witness :
    ((create_backup (fun _ => pys "ABCD1234") (pys "20250101-120000") (pys "orig")
        (pys "content") []).2.filter
      (fun f => parseBackupName f == some (pys "ABCD1234"))).length = 1
    ∧ (create_backup (fun _ => pys "ABCD1234") (pys "20250102-130000") (pys "extra")
        (pys "content")
        ((create_backup (fun _ => pys "ABCD1234") (pys "20250101-120000") (pys "orig")
          (pys "content") []).2)).2
      = (create_backup (fun _ => pys "ABCD1234") (pys "20250101-120000") (pys "orig")
          (pys "content") []).2 :=
  (create_backup_idempotent (fun _ => pys "ABCD1234") (pys "20250101-120000")
    (pys "orig") (pys "20250102-130000") (pys "extra") (pys "content") []
    ⟨pys "20250101", pys "120000", by decide, by decide, by decide, by decide, by decide⟩
    ⟨by decide, by decide⟩
    ⟨by decide, by decide, by decide⟩
    (fun c => by simp)).2.2 (by simp)

/-! ### Lemmas about the warnings map -/

/-- A key-preserving map commutes with key search. -/
lemma find?_map_keys {β : Type} {g : PyStr × β → PyStr × β}
    (hg : ∀ e, (g e).1 = e.1) (q : PyStr) :
    ∀ w : List (PyStr × β),
      (w.map g).find? (fun e => e.1 == q) = (w.find? (fun e => e.1 == q)).map g
  | [] => rfl
  | e :: rest => by
    cases he : (e.1 == q) with
    | false =>
      simp only [List.map_cons, List.find?_cons, hg e, he]
      exact find?_map_keys hg q rest
    | true => simp only [List.map_cons, List.find?_cons, hg e, he, Option.map_some']

/-- A hit in the front half survives an append. -/
lemma find?_append_some {β : Type} {p : PyStr × β → Bool} {w : List (PyStr × β)}
    {en : PyStr × β} (h : w.find? p = some en) (w2 : List (PyStr × β)) :
    (w ++ w2).find? p = some en := by
  induction w with
  | nil => simp at h
  | cons e rest ih =>
    cases he : p e with
    | true =>
      rw [List.find?_cons_of_pos _ he] at h
      rw [List.cons_append, List.find?_cons_of_pos _ he]
      exact h
    | false =>
      rw [List.find?_cons_of_neg _ (by simp [he])] at h
      rw [List.cons_append, List.find?_cons_of_neg _ (by simp [he])]
      exact ih h

/-- A miss in the front half defers to the back half. -/
lemma find?_append_none {β : Type} {p : PyStr × β → Bool} {w : List (PyStr × β)}
    (h : w.find? p = none) (w2 : List (PyStr × β)) :
    (w ++ w2).find? p = w2.find? p := by
  induction w with
  | nil => simp
  | cons e rest ih =>
    cases he : p e with
    | true => rw [List.find?_cons_of_pos _ he] at h; exact absurd h (by simp)
    | false =>
      rw [List.find?_cons_of_neg _ (by simp [he])] at h
      rw [List.cons_append, List.find?_cons_of_neg _ (by simp [he])]
      exact ih h

/-- `any` on the key test matches `find?` success for any value type. -/
lemma any_key_eq_isSome_find? {β : Type} (k : PyStr) :
    ∀ w : List (PyStr × β),
      w.any (fun p => p.1 == k) = (w.find? (fun p => p.1 == k)).isSome
  | [] => rfl
  | e :: rest => by
    cases he : (e.1 == k) with
    | false =>
      simp only [List.any_cons, List.find?_cons, he, Bool.false_or]
      exact any_key_eq_isSome_find? k rest
    | true => simp [List.find?_cons, he]

/-- The entry `find?` returns for a key test carries that key. -/
lemma find?_key_eq {β : Type} {k : PyStr} :
    ∀ {w : List (PyStr × β)} {en : PyStr × β},
      w.find? (fun e => e.1 == k) = some en → en.1 = k := by
  intro w
  induction w with
  | nil => intro en h; simp at h
  | cons e rest ih =>
    intro en h
    cases he : (e.1 == k) with
    | true =>
      have hfind : List.find? (fun e : PyStr × β => e.1 == k) (e :: rest) = some e :=
        List.find?_cons_of_pos rest he
      rw [hfind] at h
      cases h
      exact beq_iff_eq.mp he
    | false =>
      have hfind : List.find? (fun e : PyStr × β => e.1 == k) (e :: rest)
          = List.find? (fun e : PyStr × β => e.1 == k) rest :=
        List.find?_cons_of_neg rest (by simp [he])
      rw [hfind] at h
      exact ih h

/-- The freshly appended entry of `hey` lands at the end of the
parameter's list (or opens a new singleton list). -/
lemma mem_lookupWarns_hey_self (w : Warns) (p : PyStr) (s : Nat) (m : PyStr) :
    (stars.getD s [], m) ∈ lookupWarns (hey w p s m) p := by
  unfold hey lookupWarns
  by_cases hany : w.any (fun e => e.1 == p) = true
  · rw [if_pos hany]
    rw [any_key_eq_isSome_find? p w] at hany
    obtain ⟨en, hen⟩ := Option.isSome_iff_exists.mp hany
    have hkeys : ∀ e : PyStr × List WarnEntry,
        ((if e.1 == p then (e.1, e.2 ++ [(stars.getD s [], m)]) else e) : PyStr × List WarnEntry).1
          = e.1 := by
      intro e
      by_cases h : (e.1 == p) = true <;> simp [h]
    rw [find?_map_keys hkeys p w, hen]
    have hep2 : en.1 = p := find?_key_eq hen
    simp [hep2]
  · rw [if_neg hany]
    have hnone : w.find? (fun e => e.1 == p) = none := by
      rw [any_key_eq_isSome_find? p w] at hany
      exact Option.not_isSome_iff_eq_none.mp (by simpa using hany)
    rw [find?_append_none hnone]
    simp [List.find?_cons]

/-- `hey` never removes an already-attached warning entry. -/
lemma lookupWarns_hey_mono {w : Warns} {q : PyStr} {x : WarnEntry}
    (h : x ∈ lookupWarns w q) (p : PyStr) (s : Nat) (m : PyStr) :
    x ∈ lookupWarns (hey w p s m) q := by
  unfold lookupWarns at h ⊢
  cases hfind : w.find? (fun e => e.1 == q) with
  | none => rw [hfind] at h; simp at h
  | some en =>
    rw [hfind] at h
    simp only [Option.map_some', Option.getD_some] at h
    unfold hey
    by_cases hany : w.any (fun e => e.1 == p) = true
    · rw [if_pos hany]
      have hkeys : ∀ e : PyStr × List WarnEntry,
          ((if e.1 == p then (e.1, e.2 ++ [(stars.getD s [], m)]) else e) : PyStr × List WarnEntry).1
            = e.1 := by
        intro e
        by_cases hh : (e.1 == p) = true <;> simp [hh]
      rw [find?_map_keys hkeys q w, hfind]
      by_cases hh : (en.1 == p) = true
      · simp only [Option.map_some', hh, if_true]
        simpa using Or.inl h
      · simp only [Option.map_some', Bool.not_eq_true] at hh ⊢
        rw [hh]
        simpa using h
    · rw [if_neg hany]
      rw [find?_append_some hfind]
      simpa using h

/-! Monotonicity of each rule check: a warning entry already attached to
a parameter survives every later check. -/

lemma checkSaveDefaultPure_mono {d sv : PyStr} {w : Warns} {q : PyStr} {x : WarnEntry}
    (h : x ∈ lookupWarns w q) : x ∈ lookupWarns (checkSaveDefaultPure d sv w) q := by
  unfold checkSaveDefaultPure
  try dsimp only
  repeat' split
  all_goals
    first
    | exact h
    | exact lookupWarns_hey_mono h _ _ _
    | exact lookupWarns_hey_mono (lookupWarns_hey_mono h _ _ _) _ _ _

lemma checkZeroTimeout_mono {vals : Vals} {w : Warns} {q : PyStr} {x : WarnEntry}
    (h : x ∈ lookupWarns w q) : x ∈ lookupWarns (checkZeroTimeout vals w) q := by
  unfold checkZeroTimeout
  try dsimp only
  repeat' split
  all_goals
    first
    | exact h
    | exact lookupWarns_hey_mono h _ _ _
    | exact lookupWarns_hey_mono (lookupWarns_hey_mono h _ _ _) _ _ _

lemma checkPosTimeout_mono {vals : Vals} {w : Warns} {q : PyStr} {x : WarnEntry}
    (h : x ∈ lookupWarns w q) : x ∈ lookupWarns (checkPosTimeout vals w) q := by
  unfold checkPosTimeout
  try dsimp only
  repeat' split
  all_goals
    first
    | exact h
    | exact lookupWarns_hey_mono h _ _ _
    | exact lookupWarns_hey_mono (lookupWarns_hey_mono h _ _ _) _ _ _

lemma checkQuietSplash_mono {cl : PyStr} {w : Warns} {q : PyStr} {x : WarnEntry}
    (h : x ∈ lookupWarns w q) : x ∈ lookupWarns (checkQuietSplash cl w) q := by
  unfold checkQuietSplash
  try dsimp only
  repeat' split
  all_goals
    first
    | exact h
    | exact lookupWarns_hey_mono h _ _ _
    | exact lookupWarns_hey_mono (lookupWarns_hey_mono h _ _ _) _ _ _

lemma checkLuksLvm_mono {layout : DiskLayout} {cl : PyStr} {w : Warns} {q : PyStr} {x : WarnEntry}
    (h : x ∈ lookupWarns w q) : x ∈ lookupWarns (checkLuksLvm layout cl w) q := by
  unfold checkLuksLvm
  try dsimp only
  repeat' split
  all_goals
    first
    | exact h
    | exact lookupWarns_hey_mono h _ _ _
    | exact lookupWarns_hey_mono (lookupWarns_hey_mono h _ _ _) _ _ _

lemma checkCryptodisk_mono {layout : DiskLayout} {vals : Vals} {w : Warns} {q : PyStr} {x : WarnEntry}
    (h : x ∈ lookupWarns w q) : x ∈ lookupWarns (checkCryptodisk layout vals w) q := by
  unfold checkCryptodisk
  try dsimp only
  repeat' split
  all_goals
    first
    | exact h
    | exact lookupWarns_hey_mono h _ _ _
    | exact lookupWarns_hey_mono (lookupWarns_hey_mono h _ _ _) _ _ _

lemma checkRecovery_mono {vals : Vals} {w : Warns} {q : PyStr} {x : WarnEntry}
    (h : x ∈ lookupWarns w q) : x ∈ lookupWarns (checkRecovery vals w) q := by
  unfold checkRecovery
  try dsimp only
  repeat' split
  all_goals
    first
    | exact h
    | exact lookupWarns_hey_mono h _ _ _
    | exact lookupWarns_hey_mono (lookupWarns_hey_mono h _ _ _) _ _ _

lemma checkUuidPair_mono {vals : Vals} {w : Warns} {q : PyStr} {x : WarnEntry}
    (h : x ∈ lookupWarns w q) : x ∈ lookupWarns (checkUuidPair vals w) q := by
  unfold checkUuidPair
  try dsimp only
  repeat' split
  all_goals
    first
    | exact h
    | exact lookupWarns_hey_mono h _ _ _
    | exact lookupWarns_hey_mono (lookupWarns_hey_mono h _ _ _) _ _ _

lemma checkTerminalIo_mono {vals : Vals} {w : Warns} {q : PyStr} {x : WarnEntry}
    (h : x ∈ lookupWarns w q) : x ∈ lookupWarns (checkTerminalIo vals w) q := by
  unfold checkTerminalIo
  try dsimp only
  repeat' split
  all_goals
    first
    | exact h
    | exact lookupWarns_hey_mono h _ _ _
    | exact lookupWarns_hey_mono (lookupWarns_hey_mono h _ _ _) _ _ _

lemma checkSerial_mono {vals : Vals} {w : Warns} {q : PyStr} {x : WarnEntry}
    (h : x ∈ lookupWarns w q) : x ∈ lookupWarns (checkSerial vals w) q := by
  unfold checkSerial
  try dsimp only
  repeat' split
  all_goals
    first
    | exact h
    | exact lookupWarns_hey_mono h _ _ _
    | exact lookupWarns_hey_mono (lookupWarns_hey_mono h _ _ _) _ _ _

lemma checkNumericDefault_mono {vals : Vals} {sv : PyStr} {w : Warns} {q : PyStr} {x : WarnEntry}
    (h : x ∈ lookupWarns w q) : x ∈ lookupWarns (checkNumericDefault vals sv w) q := by
  unfold checkNumericDefault
  try dsimp only
  repeat' split
  all_goals
    first
    | exact h
    | exact lookupWarns_hey_mono h _ _ _
    | exact lookupWarns_hey_mono (lookupWarns_hey_mono h _ _ _) _ _ _

lemma checkQuotingOne_mono {vals : Vals} {w : Warns} {p q : PyStr} {x : WarnEntry}
    (h : x ∈ lookupWarns w q) : x ∈ lookupWarns (checkQuotingOne vals w p) q := by
  unfold checkQuotingOne
  try dsimp only
  repeat' split
  all_goals
    first
    | exact h
    | exact lookupWarns_hey_mono h _ _ _
    | exact lookupWarns_hey_mono (lookupWarns_hey_mono h _ _ _) _ _ _

lemma checkQuoting_mono {vals : Vals} {w : Warns} {q : PyStr} {x : WarnEntry}
    (h : x ∈ lookupWarns w q) : x ∈ lookupWarns (checkQuoting vals w) q :=
  checkQuotingOne_mono (checkQuotingOne_mono h)

lemma checkPathOne_mono {pe : PyStr → Bool} {vals : Vals} {w : Warns} {p q : PyStr} {x : WarnEntry}
    (h : x ∈ lookupWarns w q) : x ∈ lookupWarns (checkPathOne pe vals w p) q := by
  unfold checkPathOne
  try dsimp only
  repeat' split
  all_goals
    first
    | exact h
    | exact lookupWarns_hey_mono h _ _ _
    | exact lookupWarns_hey_mono (lookupWarns_hey_mono h _ _ _) _ _ _

lemma checkPaths_mono {pe : PyStr → Bool} {vals : Vals} {w : Warns} {q : PyStr}
    {x : WarnEntry} (h : x ∈ lookupWarns w q) :
    x ∈ lookupWarns (checkPaths pe vals w) q :=
  checkPathOne_mono (checkPathOne_mono h)

lemma checkGfxmode_mono {vals : Vals} {w : Warns} {q : PyStr} {x : WarnEntry}
    (h : x ∈ lookupWarns w q) : x ∈ lookupWarns (checkGfxmode vals w) q := by
  unfold checkGfxmode
  try dsimp only
  repeat' split
  all_goals
    first
    | exact h
    | exact lookupWarns_hey_mono h _ _ _
    | exact lookupWarns_hey_mono (lookupWarns_hey_mono h _ _ _) _ _ _

lemma checkDistributor_mono {vals : Vals} {w : Warns} {q : PyStr} {x : WarnEntry}
    (h : x ∈ lookupWarns w q) : x ∈ lookupWarns (checkDistributor vals w) q := by
  unfold checkDistributor
  try dsimp only
  repeat' split
  all_goals
    first
    | exact h
    | exact lookupWarns_hey_mono h _ _ _
    | exact lookupWarns_hey_mono (lookupWarns_hey_mono h _ _ _) _ _ _

lemma checkOsProber_mono {layout : DiskLayout} {vals : Vals} {w : Warns} {q : PyStr} {x : WarnEntry}
    (h : x ∈ lookupWarns w q) : x ∈ lookupWarns (checkOsProber layout vals w) q := by
  unfold checkOsProber
  try dsimp only
  repeat' split
  all_goals
    first
    | exact h
    | exact lookupWarns_hey_mono h _ _ _
    | exact lookupWarns_hey_mono (lookupWarns_hey_mono h _ _ _) _ _ _

lemma checkEnums_mono {param_cfg : List (PyStr × ParamCfg)} {vals : Vals} {w : Warns}
    {q : PyStr} {x : WarnEntry} (h : x ∈ lookupWarns w q) :
    x ∈ lookupWarns (checkEnums param_cfg vals w) q := by
  induction param_cfg generalizing w with
  | nil => exact h
  | cons pc rest ih =>
    unfold checkEnums at ih ⊢
    rw [List.foldl_cons]
    apply ih
    try dsimp only
    repeat' split
    all_goals
      first
      | exact h
      | exact lookupWarns_hey_mono h _ _ _

lemma checkTimeoutLimitOne_mono {vals : Vals} {w : Warns} {p : PyStr} {limit : Nat} {msg : PyStr} {q : PyStr} {x : WarnEntry}
    (h : x ∈ lookupWarns w q) : x ∈ lookupWarns (checkTimeoutLimitOne vals w p limit msg) q := by
  unfold checkTimeoutLimitOne
  try dsimp only
  repeat' split
  all_goals
    first
    | exact h
    | exact lookupWarns_hey_mono h _ _ _
    | exact lookupWarns_hey_mono (lookupWarns_hey_mono h _ _ _) _ _ _

lemma checkTimeoutLimits_mono {vals : Vals} {w : Warns} {q : PyStr} {x : WarnEntry}
    (h : x ∈ lookupWarns w q) : x ∈ lookupWarns (checkTimeoutLimits vals w) q :=
  checkTimeoutLimitOne_mono (checkTimeoutLimitOne_mono h)

/-- All checks from the quiet/splash block onward, as one composition
(the tail of `warnsPure` after the timeout checks). -/
lemma warnsTail_mono {layout : DiskLayout} {pe : PyStr → Bool}
    {param_cfg : List (PyStr × ParamCfg)} {vals : Vals} {cl sv : PyStr} {w : Warns}
    {q : PyStr} {x : WarnEntry} (h : x ∈ lookupWarns w q) :
    x ∈ lookupWarns
      (checkTimeoutLimits vals
        (checkEnums param_cfg vals
          (checkOsProber layout vals
            (checkDistributor vals
              (checkGfxmode vals
                (checkPaths pe vals
                  (checkQuoting vals
                    (checkNumericDefault vals sv
                      (checkSerial vals
                        (checkTerminalIo vals
                          (checkUuidPair vals
                            (checkRecovery vals
                              (checkCryptodisk layout vals
                                (checkLuksLvm layout cl
                                  (checkQuietSplash cl w))))))))))))))) q :=
  checkTimeoutLimits_mono (checkEnums_mono (checkOsProber_mono (checkDistributor_mono
    (checkGfxmode_mono (checkPaths_mono (checkQuoting_mono (checkNumericDefault_mono
      (checkSerial_mono (checkTerminalIo_mono (checkUuidPair_mono (checkRecovery_mono
        (checkCryptodisk_mono (checkLuksLvm_mono (checkQuietSplash_mono h))))))))))))))

/-- With `GRUB_SAVEDEFAULT` present, the save-default check never raises
and agrees with its pure form. -/
lemma checkSaveDefault_eq_pure {vals : Vals} {sv : PyStr} (d : PyStr) (w : Warns)
    (hsv : pyGet? vals (pys "GRUB_SAVEDEFAULT") = some sv) :
    checkSaveDefault vals d w = .ok (checkSaveDefaultPure d sv w) := by
  unfold checkSaveDefault checkSaveDefaultPure
  by_cases h1 : d ∈ quotesForms (pys "saved")
  · rw [if_pos h1]
    simp only [pyGetBang, hsv, exc_ok_bind]
    by_cases h2 : sv ∈ quotesForms (pys "true")
    · simp [h1, h2, exc_pure_eq_ok]
    · simp [h1, h2, exc_pure_eq_ok]
  · simp [h1, exc_pure_eq_ok]

/-- With the three unconditionally indexed keys present, `make_warns`
succeeds and equals the pure chain. -/
lemma make_warns_eq_pure {layout : DiskLayout} {pe : PyStr → Bool}
    {param_cfg : List (PyStr × ParamCfg)} {vals : Vals} {d sv cl : PyStr}
    (hd : pyGet? vals (pys "GRUB_DEFAULT") = some d)
    (hsv : pyGet? vals (pys "GRUB_SAVEDEFAULT") = some sv)
    (hcl : pyGet? vals (pys "GRUB_CMDLINE_LINUX") = some cl) :
    make_warns layout pe param_cfg vals
      = .ok (warnsPure layout pe param_cfg vals d sv cl) := by
  unfold make_warns warnsPure
  simp only [pyGetBang, hd, hsv, hcl, exc_ok_bind, checkSaveDefault_eq_pure d _ hsv]
  rfl

/-- C10: `make_warns` completes exactly when the values map contains
`GRUB_DEFAULT`, `GRUB_SAVEDEFAULT` and `GRUB_CMDLINE_LINUX` — the three
parameters read with unguarded indexing; every other parameter may be
absent without raising. -/
theorem make_warns_total_iff (layout : DiskLayout) (pathExists : PyStr → Bool)
    (param_cfg : List (PyStr × ParamCfg)) (vals : Vals) :
    (make_warns layout pathExists param_cfg vals).isOk = true
      ↔ pyHasKey vals (pys "GRUB_DEFAULT") = true
        ∧ pyHasKey vals (pys "GRUB_SAVEDEFAULT") = true
        ∧ pyHasKey vals (pys "GRUB_CMDLINE_LINUX") = true := by
  constructor
  · intro h
    unfold pyHasKey
    cases hd : pyGet? vals (pys "GRUB_DEFAULT") with
    | none =>
      rw [show make_warns layout pathExists param_cfg vals = .error () by
        unfold make_warns
        simp [pyGetBang, hd, exc_error_bind]] at h
      simp [Except.isOk, Except.toBool] at h
    | some d =>
      cases hsv : pyGet? vals (pys "GRUB_SAVEDEFAULT") with
      | none =>
        exfalso
        unfold make_warns at h
        simp only [pyGetBang, hd, exc_ok_bind] at h
        by_cases h1 : d ∈ quotesForms (pys "saved")
        · rw [show checkSaveDefault vals d [] = .error () by
            unfold checkSaveDefault
            rw [if_pos h1]
            simp [pyGetBang, hsv, exc_error_bind]] at h
          simp [exc_error_bind, Except.isOk, Except.toBool] at h
        · rw [show checkSaveDefault vals d [] = .ok [] by
            unfold checkSaveDefault
            simp [h1, exc_pure_eq_ok]] at h
          rw [exc_ok_bind] at h
          cases hcl : pyGet? vals (pys "GRUB_CMDLINE_LINUX") with
          | none => simp [pyGetBang, hcl, exc_error_bind, Except.isOk, Except.toBool] at h
          | some cl =>
            simp only [pyGetBang, hcl, exc_ok_bind] at h
            simp [pyGetBang, hsv, exc_error_bind, Except.isOk, Except.toBool] at h
      | some sv =>
        cases hcl : pyGet? vals (pys "GRUB_CMDLINE_LINUX") with
        | none =>
          exfalso
          unfold make_warns at h
          simp only [pyGetBang, hd, exc_ok_bind,
            checkSaveDefault_eq_pure d _ hsv] at h
          simp [pyGetBang, hcl, exc_error_bind, Except.isOk, Except.toBool] at h
        | some cl => simp [hd, hsv, hcl]
  · rintro ⟨hd, hsv, hcl⟩
    unfold pyHasKey at hd hsv hcl
    obtain ⟨d, hd⟩ := Option.isSome_iff_exists.mp hd
    obtain ⟨sv, hsv⟩ := Option.isSome_iff_exists.mp hsv
    obtain ⟨cl, hcl⟩ := Option.isSome_iff_exists.mp hcl
    rw [make_warns_eq_pure hd hsv hcl]
    rfl

/-- The warnings map of a successful run is the pure chain. -/
lemma warnsOf_eq {layout : DiskLayout} {pe : PyStr → Bool}
    {param_cfg : List (PyStr × ParamCfg)} {vals : Vals} {d sv cl : PyStr}
    (hd : pyGet? vals (pys "GRUB_DEFAULT") = some d)
    (hsv : pyGet? vals (pys "GRUB_SAVEDEFAULT") = some sv)
    (hcl : pyGet? vals (pys "GRUB_CMDLINE_LINUX") = some cl) :
    warnsOf (make_warns layout pe param_cfg vals)
      = warnsPure layout pe param_cfg vals d sv cl := by
  rw [make_warns_eq_pure hd hsv hcl]
  rfl

/-- C8: the validator flags the two timeout/style incoherences as
severity-4 ("****") conflicts.  Whenever the timeout value is the zero
form `0`/`0.0` (raw or quoted) and the style is `hidden`, the run
attaches a four-star warning to `GRUB_TIMEOUT`; and whenever the timeout
value parses as a positive number while the style is not `menu` (absent
included), it attaches a four-star warning to `GRUB_TIMEOUT_STYLE`.
The three unconditionally read keys must be present for the run to
return at all (see the totality theorem). -/
theorem timeout_style_conflicts (layout : DiskLayout) (pathExists : PyStr → Bool)
    (param_cfg : List (PyStr × ParamCfg)) (vals : Vals)
    (hGD : (pyGet? vals (pys "GRUB_DEFAULT")).isSome = true)
    (hGSD : (pyGet? vals (pys "GRUB_SAVEDEFAULT")).isSome = true)
    (hGCL : (pyGet? vals (pys "GRUB_CMDLINE_LINUX")).isSome = true) :
    (∀ tv st, pyGet? vals (pys "GRUB_TIMEOUT") = some tv →
      (tv ∈ quotesForms (pys "0") ∨ tv ∈ quotesForms (pys "0.0")) →
      pyGet? vals (pys "GRUB_TIMEOUT_STYLE") = some st →
      st ∈ quotesForms (pys "hidden") →
      (pys "****", pys "should be positive int when TIMEOUT_STYLE=\"hidden\"")
        ∈ lookupWarns (warnsOf (make_warns layout pathExists param_cfg vals))
            (pys "GRUB_TIMEOUT"))
    ∧ (∀ tv, pyGet? vals (pys "GRUB_TIMEOUT") = some tv →
      pyFloatGtZero (unquote tv) = true →
      optIn (pyGet? vals (pys "GRUB_TIMEOUT_STYLE")) (quotesForms (pys "menu")) = false →
      (pys "****", pys "should be \"menu\" when TIMEOUT > 0")
        ∈ lookupWarns (warnsOf (make_warns layout pathExists param_cfg vals))
            (pys "GRUB_TIMEOUT_STYLE")) := by
  obtain ⟨d, hd⟩ := Option.isSome_iff_exists.mp hGD
  obtain ⟨sv, hsv⟩ := Option.isSome_iff_exists.mp hGSD
  obtain ⟨cl, hcl⟩ := Option.isSome_iff_exists.mp hGCL
  rw [warnsOf_eq hd hsv hcl]
  constructor
  · intro tv st htv hz hsteq hstmem
    unfold warnsPure
    apply warnsTail_mono
    apply checkPosTimeout_mono
    have hcond : ((optIn (pyGet? vals (pys "GRUB_TIMEOUT")) (quotesForms (pys "0"))
        || optIn (pyGet? vals (pys "GRUB_TIMEOUT")) (quotesForms (pys "0.0")))
        && optIn (pyGet? vals (pys "GRUB_TIMEOUT_STYLE")) (quotesForms (pys "hidden")))
        = true := by
      rw [htv, hsteq]
      simp only [optIn]
      simp
      exact ⟨hz, hstmem⟩
    rw [show checkZeroTimeout vals (checkSaveDefaultPure d sv [])
        = hey (checkSaveDefaultPure d sv []) (pys "GRUB_TIMEOUT") 4
            (pys "should be positive int when TIMEOUT_STYLE=\"hidden\"") by
      unfold checkZeroTimeout
      dsimp only
      rw [if_pos hcond]]
    exact mem_lookupWarns_hey_self _ _ 4 _
  · intro tv htv hpos hmenu
    unfold warnsPure
    apply warnsTail_mono
    have hcond : (pyFloatGtZero (unquote (pyGetD vals (pys "GRUB_TIMEOUT") (pys "0")))
        && !(optIn (pyGet? vals (pys "GRUB_TIMEOUT_STYLE")) (quotesForms (pys "menu"))))
        = true := by
      rw [show pyGetD vals (pys "GRUB_TIMEOUT") (pys "0") = tv by
        unfold pyGetD
        rw [htv]
        rfl]
      simp [hpos, hmenu]
    rw [show checkPosTimeout vals (checkZeroTimeout vals (checkSaveDefaultPure d sv []))
        = hey (checkZeroTimeout vals (checkSaveDefaultPure d sv []))
            (pys "GRUB_TIMEOUT_STYLE") 4 (pys "should be \"menu\" when TIMEOUT > 0") by
      unfold checkPosTimeout
      dsimp only
      rw [if_pos hcond]]
    exact mem_lookupWarns_hey_self _ _ 4 _

/-- C8 witness: the spec's scenario 2 (`TIMEOUT=0`, `TIMEOUT_STYLE=hidden`)
and a positive-timeout variant, both over a values map holding the three
required keys. -/
theorem c8_witness :
    (pys "****", pys "should be positive int when TIMEOUT_STYLE=\"hidden\"")
      ∈ lookupWarns (warnsOf (make_warns ⟨false, false, false⟩ (fun _ => false) []
          [(pys "GRUB_DEFAULT", pys "0"), (pys "GRUB_SAVEDEFAULT", pys "false"),
           (pys "GRUB_CMDLINE_LINUX", pys ""), (pys "GRUB_TIMEOUT", pys "0"),
           (pys "GRUB_TIMEOUT_STYLE", pys "hidden")]))
          (pys "GRUB_TIMEOUT")
    ∧ (pys "****", pys "should be \"menu\" when TIMEOUT > 0")
      ∈ lookupWarns (warnsOf (make_warns ⟨false, false, false⟩ (fun _ => false) []
          [(pys "GRUB_DEFAULT", pys "0"), (pys "GRUB_SAVEDEFAULT", pys "false"),
           (pys "GRUB_CMDLINE_LINUX", pys ""), (pys "GRUB_TIMEOUT", pys "5"),
           (pys "GRUB_TIMEOUT_STYLE", pys "countdown")]))
          (pys "GRUB_TIMEOUT_STYLE") :=
  ⟨(timeout_style_conflicts ⟨false, false, false⟩ (fun _ => false) []
      [(pys "GRUB_DEFAULT", pys "0"), (pys "GRUB_SAVEDEFAULT", pys "false"),
       (pys "GRUB_CMDLINE_LINUX", pys ""), (pys "GRUB_TIMEOUT", pys "0"),
       (pys "GRUB_TIMEOUT_STYLE", pys "hidden")]
      (by decide) (by decide) (by decide)).1 (pys "0") (pys "hidden")
      (by decide) (by decide) (by decide) (by decide),
   (timeout_style_conflicts ⟨false, false, false⟩ (fun _ => false) []
      [(pys "GRUB_DEFAULT", pys "0"), (pys "GRUB_SAVEDEFAULT", pys "false"),
       (pys "GRUB_CMDLINE_LINUX", pys ""), (pys "GRUB_TIMEOUT", pys "5"),
       (pys "GRUB_TIMEOUT_STYLE", pys "countdown")]
      (by decide) (by decide) (by decide)).2 (pys "5")
      (by decide) (by decide) (by decide)⟩

/-- The quoting step fires on a spaced, improperly quoted value. -/
lemma checkQuotingOne_fires {vals : Vals} {p v : PyStr} (w : Warns)
    (hv : pyGet? vals p = some v) (hsp : ' ' ∈ v)
    (hq : v ∉ quotesForms (unquote v)) :
    checkQuotingOne vals w p = hey w p 2 (pys "has spaces and thus must be quoted") := by
  have c1 : v.contains ' ' = true := List.elem_eq_true_of_mem hsp
  have c2 : (quotesForms (unquote v)).contains v = false := by simpa using hq
  unfold checkQuotingOne
  rw [hv]
  dsimp only
  rw [if_pos (by simp [c1, c2]; exact ⟨hsp, hq⟩)]

/-- C9 (amended): the quoting check covers exactly the two kernel
command-line parameters, `GRUB_CMDLINE_LINUX` and
`GRUB_CMDLINE_LINUX_DEFAULT`, and looks for a space character only: for
either of these, a present value containing a space that differs from
every quoted form of its unquoted core gets the severity-2 quoting
warning.  Other parameters are not subject to the quoting check (see
the counterexample), and whitespace other than a space does not fire it. -/
theorem quoting_check_two_params (layout : DiskLayout) (pathExists : PyStr → Bool)
    (param_cfg : List (PyStr × ParamCfg)) (vals : Vals)
    (hGD : (pyGet? vals (pys "GRUB_DEFAULT")).isSome = true)
    (hGSD : (pyGet? vals (pys "GRUB_SAVEDEFAULT")).isSome = true)
    (hGCL : (pyGet? vals (pys "GRUB_CMDLINE_LINUX")).isSome = true)
    (p : PyStr)
    (hp : p = pys "GRUB_CMDLINE_LINUX" ∨ p = pys "GRUB_CMDLINE_LINUX_DEFAULT")
    (v : PyStr) (hv : pyGet? vals p = some v) (hsp : ' ' ∈ v)
    (hq : v ∉ quotesForms (unquote v)) :
    (pys "**", pys "has spaces and thus must be quoted")
      ∈ lookupWarns (warnsOf (make_warns layout pathExists param_cfg vals)) p := by
  obtain ⟨d, hd⟩ := Option.isSome_iff_exists.mp hGD
  obtain ⟨sv, hsv⟩ := Option.isSome_iff_exists.mp hGSD
  obtain ⟨cl, hcl⟩ := Option.isSome_iff_exists.mp hGCL
  rw [warnsOf_eq hd hsv hcl]
  unfold warnsPure
  apply checkTimeoutLimits_mono
  apply checkEnums_mono
  apply checkOsProber_mono
  apply checkDistributor_mono
  apply checkGfxmode_mono
  apply checkPaths_mono
  unfold checkQuoting
  rcases hp with rfl | rfl
  · apply checkQuotingOne_mono
    rw [checkQuotingOne_fires _ hv hsp hq]
    exact mem_lookupWarns_hey_self _ _ 2 _
  · rw [checkQuotingOne_fires _ hv hsp hq]
    exact mem_lookupWarns_hey_self _ _ 2 _

/-- C9 counterexample: a `GRUB_DISTRIBUTOR` value that contains
whitespace and appears in none of its quoted forms receives no quoting
warning — the engine's quoting check never looks at that parameter, so
the claim's "every parameter value" fails. -/
theorem c9_quoting_counterexample :
    (' ' ∈ pys "\"a b")
    ∧ (pys "\"a b") ∉ quotesForms (unquote (pys "\"a b"))
    ∧ (pys "**", pys "has spaces and thus must be quoted")
        ∉ lookupWarns
            (warnsOf (make_warns ⟨false, false, false⟩ (fun _ => false) []
              [(pys "GRUB_DEFAULT", pys "0"), (pys "GRUB_SAVEDEFAULT", pys "false"),
               (pys "GRUB_CMDLINE_LINUX", pys ""),
               (pys "GRUB_DISTRIBUTOR", pys "\"a b")]))
            (pys "GRUB_DISTRIBUTOR") := by decide

/-- C9 witness: the amended statement applied to a spaced, badly quoted
`GRUB_CMDLINE_LINUX` value. -/
theorem c9_witness :
    (pys "**", pys "has spaces and thus must be quoted")
      ∈ lookupWarns
          (warnsOf (make_warns ⟨false, false, false⟩ (fun _ => false) []
            [(pys "GRUB_DEFAULT", pys "0"), (pys "GRUB_SAVEDEFAULT", pys "false"),
             (pys "GRUB_CMDLINE_LINUX", pys "\"a b")]))
          (pys "GRUB_CMDLINE_LINUX") :=
  quoting_check_two_params ⟨false, false, false⟩ (fun _ => false) []
    [(pys "GRUB_DEFAULT", pys "0"), (pys "GRUB_SAVEDEFAULT", pys "false"),
     (pys "GRUB_CMDLINE_LINUX", pys "\"a b")]
    (by decide) (by decide) (by decide) (pys "GRUB_CMDLINE_LINUX") (Or.inl rfl)
    (pys "\"a b") (by decide) (by decide) (by decide)

/-- Membership through `appendIfAbsent`. -/
lemma mem_appendIfAbsent {l : List PyStr} {x y : PyStr} :
    x ∈ appendIfAbsent l y ↔ x ∈ l ∨ x = y := by
  unfold appendIfAbsent
  split
  · constructor
    · exact Or.inl
    · rintro (h | rfl)
      · exact h
      · assumption
  · simp [List.mem_append]

/-- Membership through the token-resolution fold of one message. -/
lemma mem_foldWords (vals : Vals) :
    ∀ (ws : List PyStr) (acc : List PyStr) (x : PyStr),
      x ∈ ws.foldl
          (fun a word =>
            match resolveWord vals word with
            | some other_name => appendIfAbsent a other_name
            | none => a)
          acc
        ↔ x ∈ acc ∨ ∃ wd ∈ ws, resolveWord vals wd = some x
  | [], acc, x => by simp
  | wd0 :: rest, acc, x => by
    rw [List.foldl_cons]
    cases hr : resolveWord vals wd0 with
    | none =>
      rw [mem_foldWords vals rest acc x]
      constructor
      · rintro (h | ⟨wd, hwd, hres⟩)
        · exact Or.inl h
        · exact Or.inr ⟨wd, List.mem_cons_of_mem _ hwd, hres⟩
      · rintro (h | ⟨wd, hwd, hres⟩)
        · exact Or.inl h
        · rcases List.mem_cons.mp hwd with rfl | hwd2
          · rw [hr] at hres; exact absurd hres (by simp)
          · exact Or.inr ⟨wd, hwd2, hres⟩
    | some o =>
      rw [mem_foldWords vals rest (appendIfAbsent acc o) x]
      rw [mem_appendIfAbsent]
      constructor
      · rintro ((h | rfl) | ⟨wd, hwd, hres⟩)
        · exact Or.inl h
        · exact Or.inr ⟨wd0, List.mem_cons_self _ _, hr⟩
        · exact Or.inr ⟨wd, List.mem_cons_of_mem _ hwd, hres⟩
      · rintro (h | ⟨wd, hwd, hres⟩)
        · exact Or.inl (Or.inl h)
        · rcases List.mem_cons.mp hwd with rfl | hwd2
          · rw [hr] at hres
            exact Or.inl (Or.inr (Option.some_injective _ hres).symm)
          · exact Or.inr ⟨wd, hwd2, hres⟩

/-- Membership through `addWordRefs`. -/
lemma mem_addWordRefs {vals : Vals} {acc : List PyStr} {msg x : PyStr} :
    x ∈ addWordRefs vals acc msg
      ↔ x ∈ acc ∨ ∃ wd ∈ findallUpper msg, resolveWord vals wd = some x :=
  mem_foldWords vals (findallUpper msg) acc x

/-- Membership through one parameter's warning-message fold. -/
lemma mem_foldHeys (vals : Vals) :
    ∀ (heys : List WarnEntry) (acc : List PyStr) (x : PyStr),
      x ∈ heys.foldl (fun a h => addWordRefs vals a h.2) acc
        ↔ x ∈ acc
          ∨ ∃ h ∈ heys, ∃ wd ∈ findallUpper h.2, resolveWord vals wd = some x
  | [], acc, x => by simp
  | h0 :: rest, acc, x => by
    rw [List.foldl_cons, mem_foldHeys vals rest _ x, mem_addWordRefs]
    constructor
    · rintro ((h | ⟨wd, hwd, hres⟩) | ⟨h, hh, hex⟩)
      · exact Or.inl h
      · exact Or.inr ⟨h0, List.mem_cons_self _ _, wd, hwd, hres⟩
      · exact Or.inr ⟨h, List.mem_cons_of_mem _ hh, hex⟩
    · rintro (h | ⟨h, hh, hex⟩)
      · exact Or.inl (Or.inl h)
      · rcases List.mem_cons.mp hh with rfl | hh2
        · exact Or.inl (Or.inr hex)
        · exact Or.inr ⟨h, hh2, hex⟩

/-- C5 (amended): the first compilation's must-review list holds exactly
the diffed parameters plus, scanning the warnings of **every** currently
warned parameter (diffed or not), each catalog name resolved from the
bracket-free uppercase tokens of those warning messages and the warned
parameter itself; and once stored, later compilations leave the list
unchanged regardless of new diffs or warnings (fixed for the life of the
review session). -/
theorem must_reviews_amended :
    (∀ (x : PyStr) (diffKeys : List PyStr) (warns : Warns) (vals : Vals),
      x ∈ mustReviewsCompute diffKeys warns vals
        ↔ x ∈ diffKeys
          ∨ ∃ pw ∈ warns, x = pw.1
              ∨ ∃ h ∈ pw.2, ∃ wd ∈ findallUpper h.2, resolveWord vals wd = some x)
    ∧ (∀ (stored diffKeys : List PyStr) (warns : Warns) (vals : Vals),
      compileMustReviews (some stored) diffKeys warns vals = stored) := by
  constructor
  · intro x diffKeys warns vals
    induction warns generalizing diffKeys with
    | nil => simp [mustReviewsCompute]
    | cons pw rest ih =>
      unfold mustReviewsCompute at ih ⊢
      rw [List.foldl_cons]
      rw [ih]
      rw [mem_appendIfAbsent, mem_foldHeys]
      constructor
      · rintro (((h | ⟨hh, hhm, hex⟩) | rfl) | ⟨pw2, hpw2, hcase⟩)
        · exact Or.inl h
        · exact Or.inr ⟨pw, List.mem_cons_self _ _, Or.inr ⟨hh, hhm, hex⟩⟩
        · exact Or.inr ⟨pw, List.mem_cons_self _ _, Or.inl rfl⟩
        · exact Or.inr ⟨pw2, List.mem_cons_of_mem _ hpw2, hcase⟩
      · rintro (h | ⟨pw2, hpw2, hcase⟩)
        · exact Or.inl (Or.inl (Or.inl h))
        · rcases List.mem_cons.mp hpw2 with rfl | hpw3
          · rcases hcase with rfl | hex
            · exact Or.inl (Or.inr rfl)
            · exact Or.inl (Or.inl (Or.inr hex))
          · exact Or.inr ⟨pw2, hpw3, hcase⟩
  · intro stored diffKeys warns vals
    rfl

/-- C5 counterexample: a session with **no** diffed parameters (current
values equal originals) still compiles a nonempty must-review list,
because the code seeds from the warnings of all parameters — here
`GRUB_SAVEDEFAULT`'s warning (and the `DEFAULT` reference inside its
message), `GRUB_DISTRIBUTOR` and `GRUB_DISABLE_OS_PROBER` — while the
claim's set (diffs plus references from diffed parameters' warnings
only) is empty. -/
theorem c5_must_reviews_counterexample :
    get_diffs
        [(pys "GRUB_DEFAULT", pys "saved"), (pys "GRUB_SAVEDEFAULT", pys "false"),
         (pys "GRUB_CMDLINE_LINUX", pys "")]
        [(pys "GRUB_DEFAULT", pys "saved"), (pys "GRUB_SAVEDEFAULT", pys "false"),
         (pys "GRUB_CMDLINE_LINUX", pys "")]
      = .ok []
    ∧ mustReviewsCompute []
        (warnsOf (make_warns ⟨false, false, false⟩ (fun _ => false) []
          [(pys "GRUB_DEFAULT", pys "saved"), (pys "GRUB_SAVEDEFAULT", pys "false"),
           (pys "GRUB_CMDLINE_LINUX", pys "")]))
        [(pys "GRUB_DEFAULT", pys "saved"), (pys "GRUB_SAVEDEFAULT", pys "false"),
         (pys "GRUB_CMDLINE_LINUX", pys "")]
      = [pys "GRUB_DEFAULT", pys "GRUB_SAVEDEFAULT", pys "GRUB_DISTRIBUTOR",
         pys "GRUB_DISABLE_OS_PROBER"]
    ∧ [pys "GRUB_DEFAULT", pys "GRUB_SAVEDEFAULT", pys "GRUB_DISTRIBUTOR",
       pys "GRUB_DISABLE_OS_PROBER"] ≠ ([] : List PyStr) :=
  ⟨by rfl, by decide, by decide⟩

end GrubWiz
